import Mathlib

/-!
# Verification of `geopandas_osm/osm.py`

A shallow embedding of the OSM XML → tables → geometry pipeline of
`geopandas_osm.osm` and proofs of the specified properties.

Modelling conventions:
* XML elements (`xml.etree.ElementTree.Element`) are `XElem` values.
* Python dicts (insertion ordered) are association lists `Row`;
  `dictSet` mirrors `d[k] = v` (update in place, else append).
* Pandas `DataFrame`s are `DataFrame`: a column list (union of the keys of
  the input records, in first-appearance order) plus rows completed with
  `Val.null` (NaN) for missing keys.
* Fallible Python code (KeyError, ValueError from `astype(float)` /
  `pd.to_datetime`, shapely's `LineString` arity check, XML parse errors)
  is modelled with `Except String`.
* `float` values are modelled as `Rat` produced by a decimal parser
  standing in for Python's `float()`.
-/

set_option autoImplicit false

namespace GeoOSM

/-- A cell value of a table: a raw string, a Python int (the `index`
counter of `read_ways` / `read_relations`), a coerced float (`astype(float)`),
a coerced datetime (`pd.to_datetime`), or NaN/missing. -/
inductive Val where
  | str : String → Val
  | int : Nat → Val
  | rat : Rat → Val
  | time : Nat → Val
  | null : Val
deriving Repr, DecidableEq

/-- An XML element: tag name, attributes (in document order), children. -/
inductive XElem : Type where
  | mk (name : String) (attrib : List (String × String)) (children : List XElem) : XElem

def XElem.name : XElem → String
  | .mk n _ _ => n

def XElem.attrib : XElem → List (String × String)
  | .mk _ a _ => a

def XElem.children : XElem → List XElem
  | .mk _ _ c => c

/-- `element.findall(tag)`: the direct children with the given tag name,
in document order. -/
def XElem.findall (e : XElem) (tag : String) : List XElem :=
  e.children.filter (fun c => c.name == tag)

/-- A record (Python dict / completed DataFrame row): ordered key/value pairs. -/
abbrev Row := List (String × Val)

/-- Lookup of a key in an attribute list (`element.attrib[k]` yields
`some`; a missing key is `none`, which the source turns into a KeyError). -/
def attrLookup (a : List (String × String)) (k : String) : Option String :=
  (a.find? (fun p => p.1 == k)).map Prod.snd

/-- Lookup of a key in a record. -/
def alookup (r : Row) (k : String) : Option Val :=
  (r.find? (fun p => p.1 == k)).map Prod.snd

/-- The value of column `c` in row `r`; a missing key reads as NaN, matching
access to a completed DataFrame row. -/
def cell (r : Row) (c : String) : Val :=
  (alookup r c).getD .null

/-- Python dict assignment `d[k] = v`: update the existing entry in place,
otherwise append the new pair at the end (insertion order). -/
def dictSet (r : Row) (k : String) (v : Val) : Row :=
  if r.any (fun p => p.1 == k) then
    r.map (fun p => if p.1 == k then (p.1, v) else p)
  else
    r ++ [(k, v)]

/-- The keys of a record, in order. -/
def rowKeys (r : Row) : List String :=
  r.map Prod.fst

/-- `uninteresting_tags` from the source: tag keys removed before output. -/
def uninteresting_tags : List String :=
  ["source", "source_ref", "source:ref", "history", "attribution",
   "created_by", "tiger:county", "tiger:tlid", "tiger:upload_uuid"]

/-- `_element_to_dict`: copy the element's attributes, then overlay every
child `tag` element's `k`/`v` pair whose key is not denylisted (a tag key
colliding with a native attribute overwrites it).  A `tag` child missing
its `k` or `v` attribute is a KeyError in the source. -/
def element_to_dict (e : XElem) : Except String Row :=
  (e.findall "tag").foldlM
    (fun d t =>
      match attrLookup t.attrib "k", attrLookup t.attrib "v" with
      | some k, some v =>
          Except.ok (if k ∈ uninteresting_tags then d else dictSet d k (.str v))
      | _, _ => Except.error "KeyError: tag attribute")
    (e.attrib.map (fun p => (p.1, Val.str p.2)))

/-! ## Table construction (`_dict_to_dataframe` and friends) -/

/-- Error-propagating map over a list (Python: the first raised exception
aborts the whole construction). -/
def listMapE {α β : Type} (f : α → Except String β) : List α → Except String (List β)
  | [] => .ok []
  | x :: xs =>
    match f x with
    | .error e => .error e
    | .ok y =>
      match listMapE f xs with
      | .error e => .error e
      | .ok ys => .ok (y :: ys)

/-- Union of the keys of a list of records, in first-appearance order:
the column set pandas derives for `DataFrame.from_dict(list_of_dicts)`. -/
def unionKeys (ds : List Row) : List String :=
  ds.foldl (fun acc d => d.foldl (fun a p => if p.1 ∈ a then a else a ++ [p.1]) acc) []

/-- Complete a record to a fixed column list, filling missing keys with NaN. -/
def completeRow (cols : List String) (d : Row) : Row :=
  cols.map (fun c => (c, (alookup d c).getD .null))

/-- Decimal parser standing in for Python's `float()`: optional sign,
digits with an optional fractional part (at least one digit overall),
optional exponent. -/
def parseFloat (s : String) : Option Rat :=
  let chars := s.toList
  let (neg, rest) :=
    match chars with
    | '-' :: cs => (true, cs)
    | '+' :: cs => (false, cs)
    | cs => (false, cs)
  let (intPart, rest1) := rest.span Char.isDigit
  let (fracPart, rest2) :=
    match rest1 with
    | '.' :: cs => cs.span Char.isDigit
    | cs => ([], cs)
  if intPart.isEmpty ∧ fracPart.isEmpty then none
  else
    let mantissa : Nat :=
      (intPart ++ fracPart).foldl (fun a c => a * 10 + (c.toNat - 48)) 0
    let signed : Int := if neg then -(mantissa : Int) else (mantissa : Int)
    match rest2 with
    | [] => some (mkRat signed (10 ^ fracPart.length))
    | 'e' :: cs => parseExp signed fracPart.length cs
    | 'E' :: cs => parseExp signed fracPart.length cs
    | _ => none
where
  parseExp (signed : Int) (fracLen : Nat) (cs : List Char) : Option Rat :=
    let (eneg, cs1) :=
      match cs with
      | '-' :: cs => (true, cs)
      | '+' :: cs => (false, cs)
      | cs => (false, cs)
    let (eds, cs2) := cs1.span Char.isDigit
    if eds.isEmpty ∨ ¬ cs2.isEmpty then none
    else
      let e : Nat := eds.foldl (fun a c => a * 10 + (c.toNat - 48)) 0
      if eneg then some (mkRat signed (10 ^ (fracLen + e)))
      else some (mkRat (signed * (10 : Int) ^ e) (10 ^ fracLen))

/-- Minimal model of `pd.to_datetime` on one OSM timestamp string
(`YYYY-MM-DDThh:mm:ssZ`); the result is the digit string read as a number,
an abstract instant. -/
def parseTimestamp (s : String) : Option Nat :=
  match s.toList with
  | [y1, y2, y3, y4, '-', m1, m2, '-', d1, d2, 'T',
     h1, h2, ':', n1, n2, ':', s1, s2, 'Z'] =>
    let ds := [y1, y2, y3, y4, m1, m2, d1, d2, h1, h2, n1, n2, s1, s2]
    if ds.all Char.isDigit then
      some (ds.foldl (fun a c => a * 10 + (c.toNat - 48)) 0)
    else none
  | _ => none

/-- `pd.to_datetime` applied to one cell: NaN maps to NaT, a string must
parse, numbers are epoch offsets (unreachable in this pipeline). -/
def to_datetime (v : Val) : Except String Val :=
  match v with
  | .null => .ok .null
  | .str s =>
    match parseTimestamp s with
    | some t => .ok (.time t)
    | none => .error "ValueError: could not parse timestamp"
  | .int n => .ok (.time n)
  | .rat q => .ok (.time q.floor.toNat)
  | .time t => .ok (.time t)

/-- A table: column list plus rows completed over those columns. -/
structure DataFrame where
  cols : List String
  rows : List Row
deriving Repr, DecidableEq

/-- Replace the value of column `c` in a completed row. -/
def setCell (r : Row) (c : String) (v : Val) : Row :=
  r.map (fun p => if p.1 == c then (p.1, v) else p)

/-- `_dict_to_dataframe`: build the DataFrame (columns are the union of
keys, rows completed with NaN), then coerce the `timestamp` column with
`pd.to_datetime` when that column exists. -/
def dict_to_dataframe (ds : List Row) : Except String DataFrame :=
  let cols := unionKeys ds
  let rows := ds.map (completeRow cols)
  if cols.contains "timestamp" then
    match listMapE (fun r =>
        match to_datetime (cell r "timestamp") with
        | .error e => .error e
        | .ok v => .ok (setCell r "timestamp" v)) rows with
    | .error e => .error e
    | .ok rows2 => .ok ⟨cols, rows2⟩
  else .ok ⟨cols, rows⟩

/-- `astype(float)` on one cell: NaN stays NaN, strings must parse as
floats, ints and floats convert. -/
def floatOfVal (v : Val) : Except String Val :=
  match v with
  | .null => .ok .null
  | .str s =>
    match parseFloat s with
    | some q => .ok (.rat q)
    | none => .error "ValueError: could not convert string to float"
  | .int n => .ok (.rat n)
  | .rat q => .ok (.rat q)
  | .time _ => .error "TypeError: cannot convert datetime to float"

/-- `df[c] = df[c].astype(float)`: a missing column is a KeyError; the
whole coercion fails if any cell fails. -/
def astypeFloatCol (df : DataFrame) (c : String) : Except String DataFrame :=
  if df.cols.contains c then
    match listMapE (fun r =>
        match floatOfVal (cell r c) with
        | .error e => .error e
        | .ok v => .ok (setCell r c v)) df.rows with
    | .error e => .error e
    | .ok rows => .ok ⟨df.cols, rows⟩
  else .error "KeyError: column"

/-! ## Table readers -/

/-- `read_nodes`: flatten each top-level `node` element, build the table,
coerce `lon` and `lat` to float. -/
def read_nodes (doc : XElem) : Except String DataFrame :=
  match listMapE element_to_dict (doc.findall "node") with
  | .error e => .error e
  | .ok dicts =>
    match dict_to_dataframe dicts with
    | .error e => .error e
    | .ok df =>
      match astypeFloatCol df "lon" with
      | .error e => .error e
      | .ok df2 => astypeFloatCol df2 "lat"

/-- One WayNodes record for the `i`-th `nd` child of a way: the `nd`
attributes, then `d['id'] = wayid` and `d['index'] = i`. -/
def wayNodeRow (wayid : String) (i : Nat) (nd : XElem) : Row :=
  dictSet (dictSet (nd.attrib.map (fun p => (p.1, Val.str p.2))) "id" (.str wayid))
    "index" (.int i)

/-- The per-way work of the `read_ways` loop: the way's id attribute
(KeyError when missing), its WayNodes records in `nd` document order with
0-based indices, and its flattened WayTags record. -/
def way_rows (w : XElem) : Except String (List Row × Row) :=
  match attrLookup w.attrib "id" with
  | none => .error "KeyError: id"
  | some wayid =>
    match element_to_dict w with
    | .error e => .error e
    | .ok tags =>
      .ok ((w.findall "nd").enum.map (fun p => wayNodeRow wayid p.1 p.2), tags)

/-- `read_ways`: accumulate WayNodes and WayTags records over the `way`
elements in document order, then build both tables. -/
def read_ways (doc : XElem) : Except String (DataFrame × DataFrame) :=
  match listMapE way_rows (doc.findall "way") with
  | .error e => .error e
  | .ok pairs =>
    match dict_to_dataframe (pairs.flatMap Prod.fst) with
    | .error e => .error e
    | .ok waynodes =>
      match dict_to_dataframe (pairs.map Prod.snd) with
      | .error e => .error e
      | .ok waytags => .ok (waynodes, waytags)

/-- One RelationMembers record for the `i`-th `member` child of a relation. -/
def relMemberRow (relid : String) (i : Nat) (m : XElem) : Row :=
  dictSet (dictSet (m.attrib.map (fun p => (p.1, Val.str p.2))) "id" (.str relid))
    "index" (.int i)

/-- The per-relation work of the `read_relations` loop. -/
def rel_rows (r : XElem) : Except String (List Row × Row) :=
  match attrLookup r.attrib "id" with
  | none => .error "KeyError: id"
  | some relid =>
    match element_to_dict r with
    | .error e => .error e
    | .ok tags =>
      .ok ((r.findall "member").enum.map (fun p => relMemberRow relid p.1 p.2), tags)

/-- `read_relations`: accumulate RelationMembers and RelationTags records
over the `relation` elements in document order, then build both tables. -/
def read_relations (doc : XElem) : Except String (DataFrame × DataFrame) :=
  match listMapE rel_rows (doc.findall "relation") with
  | .error e => .error e
  | .ok pairs =>
    match dict_to_dataframe (pairs.flatMap Prod.fst) with
    | .error e => .error e
    | .ok relmembers =>
      match dict_to_dataframe (pairs.map Prod.snd) with
      | .error e => .error e
      | .ok reltags => .ok (relmembers, reltags)

/-- The five-table bundle (`OSMData` namedtuple). -/
structure OSMData where
  nodes : DataFrame
  waynodes : DataFrame
  waytags : DataFrame
  relmembers : DataFrame
  reltags : DataFrame
deriving Repr, DecidableEq

/-! ## Geometry rendering -/

/-- A shapely geometry: a point built from the `lon`/`lat` cells of a node
row, or a line built from an ordered coordinate list. -/
inductive Geom where
  | point : Val → Val → Geom
  | line : List (Val × Val) → Geom
deriving Repr, DecidableEq

/-- A GeoDataFrame: a table plus one geometry per row (`none` is a missing
geometry, as left by an index-aligned `set_geometry`). -/
structure GeoDF where
  cols : List String
  rows : List Row
  geoms : List (Option Geom)
deriving Repr, DecidableEq

/-- The second half of `render_nodes`: build one `Point(lon, lat)` per row
and drop the `lon`/`lat` columns (a KeyError when either is absent). -/
def points_and_drop (df : DataFrame) : Except String GeoDF :=
  if df.cols.contains "lon" ∧ df.cols.contains "lat" then
    .ok ⟨df.cols.filter (fun c => ¬ (c = "lon" ∨ c = "lat")),
         df.rows.map (fun r => r.filter (fun p => ¬ (p.1 = "lon" ∨ p.1 = "lat"))),
         df.rows.map (fun r => some (Geom.point (cell r "lon") (cell r "lat")))⟩
  else .error "KeyError: lon/lat"

/-- A row is kept by `dropna(subset, how='all')` when some subset cell is
not NaN (with an empty subset nothing is kept, as in pandas). -/
def keptByDropna (subset : List String) (r : Row) : Bool :=
  subset.any (fun c => ¬ cell r c = .null)

/-- `render_nodes`: when `drop_untagged`, drop the rows whose cells outside
`id`/`lon`/`lat` are all NaN (`dropna(subset=columns.drop(['id','lon','lat']),
how='all')`; `columns.drop` is a KeyError when one of the three labels is
missing); then build one `Point(lon, lat)` per remaining row and drop the
`lon`/`lat` columns. -/
def render_nodes (nodes : DataFrame) (drop_untagged : Bool) : Except String GeoDF :=
  if drop_untagged then
    if nodes.cols.contains "id" ∧ nodes.cols.contains "lon" ∧ nodes.cols.contains "lat" then
      points_and_drop ⟨nodes.cols,
        nodes.rows.filter
          (keptByDropna (nodes.cols.filter (fun c => ¬ (c = "id" ∨ c = "lon" ∨ c = "lat"))))⟩
    else .error "KeyError: columns.drop"
  else points_and_drop nodes

/-- `nodes[['id', 'lon', 'lat']]`: select (and reorder) columns,
KeyError when one is missing. -/
def dfSelect (df : DataFrame) (cs : List String) : Except String DataFrame :=
  if cs.all (fun c => df.cols.contains c) then
    .ok ⟨cs, df.rows.map (fun r => cs.map (fun c => (c, cell r c)))⟩
  else .error "KeyError: column selection"

/-- The column renaming of a pandas merge: columns occurring in both
frames get the (right) suffix, the rest keep their name. -/
def mergeRen (leftCols rightCols : List String) (rsuffix : String) (c : String) : String :=
  if (leftCols.filter (fun c => rightCols.contains c)).contains c then c ++ rsuffix else c

/-- Inner merge `left.merge(right, left_on, right_on, suffixes=('', rsuffix))`:
row order follows the left frame; each left row is paired with every right
row whose `rightOn` cell equals its `leftOn` cell; columns occurring in both
frames keep their name on the left and get `rsuffix` on the right. -/
def mergeInner (left right : DataFrame) (leftOn rightOn rsuffix : String) : DataFrame :=
  ⟨left.cols ++ right.cols.map (mergeRen left.cols right.cols rsuffix),
   left.rows.flatMap (fun lr =>
     (right.rows.filter (fun rr => cell rr rightOn == cell lr leftOn)).map
       (fun rr => lr ++ rr.map (fun p => (mergeRen left.cols right.cols rsuffix p.1, p.2))))⟩

/-- Stable insertion into a list sorted by the `Nat` key. -/
def insertByKey (p : Nat × Row) : List (Nat × Row) → List (Nat × Row)
  | [] => [p]
  | q :: qs => if p.1 < q.1 then p :: q :: qs else q :: insertByKey p qs

/-- Sort rows by their `Nat` key ascending (model of `sort_values`). -/
def sortByKey : List (Nat × Row) → List (Nat × Row)
  | [] => []
  | p :: ps => insertByKey p (sortByKey ps)

/-- `wayline`: sort one way's joined rows by `index` ascending, extract the
`(lon, lat)` pairs and build a `LineString`.  Shapely rejects a single
coordinate (`LineString must contain 0 or 2 or more coordinate tuples`);
a non-integer `index` cell cannot be sorted (unreachable in the pipeline). -/
def wayline (rows : List Row) : Except String Geom :=
  match listMapE (fun r =>
      match cell r "index" with
      | .int n => .ok (n, r)
      | _ => .error "TypeError: unsortable index") rows with
  | .error e => .error e
  | .ok keyed =>
    let coords := (sortByKey keyed).map (fun p => (cell p.2 "lon", cell p.2 "lat"))
    if coords.length = 1 then .error "ValueError: LineString with one coordinate"
    else .ok (.line coords)

/-- Lexicographic comparison of character lists (the order `String.lt`
denotes, written structurally). -/
def charListLt : List Char → List Char → Bool
  | _, [] => false
  | [], _ :: _ => true
  | a :: as, b :: bs => if a < b then true else if b < a then false else charListLt as bs

/-- String comparison used for the sorted group keys. -/
def strLt (a b : String) : Bool :=
  charListLt a.toList b.toList

/-- Insert a string into a sorted duplicate-free list (ascending). -/
def strInsert (s : String) : List String → List String
  | [] => [s]
  | t :: ts => if strLt s t then s :: t :: ts else if s = t then t :: ts else t :: strInsert s ts

/-- The group keys of `groupby('id')`: the distinct string `id` cells, in
ascending order (pandas sorts group keys; NaN keys form no group; the `id`
cells are always strings in this pipeline). -/
def groupKeys (rows : List Row) : List String :=
  rows.foldl (fun acc r =>
    match cell r "id" with
    | .str s => strInsert s acc
    | _ => acc) []

/-- `waynodes.groupby('id').apply(wayline)`: one `(way id, LineString)` pair
per group, in sorted key order; the first failing group aborts. -/
def way_lines_of (rows : List Row) : Except String (List (String × Geom)) :=
  listMapE (fun w =>
      match wayline (rows.filter (fun r => cell r "id" == Val.str w)) with
      | .error e => .error e
      | .ok g => .ok (w, g))
    (groupKeys rows)

/-- `render_ways`: `None` when the WayNodes table is empty; otherwise join
WayNodes to the nodes' `id`/`lon`/`lat` columns on `ref = id`, build one
line per way id, and attach the lines to WayTags by way id
(`set_index('id').set_geometry(way_lines)`; a way id absent from the lines
gets a missing geometry; `reset_index` puts `id` back as the first column). -/
def render_ways (nodes waynodes waytags : DataFrame) :
    Except String (Option GeoDF) :=
  if waynodes.rows.isEmpty then .ok none
  else
    match dfSelect nodes ["id", "lon", "lat"] with
    | .error e => .error e
    | .ok node_points =>
      match way_lines_of (mergeInner waynodes node_points "ref" "id" "_nodes").rows with
      | .error e => .error e
      | .ok way_lines =>
        if waytags.cols.contains "id" then
          .ok (some ⟨"id" :: waytags.cols.filter (fun c => ¬ c = "id"),
                     waytags.rows,
                     waytags.rows.map (fun r =>
                       match cell r "id" with
                       | .str w => (way_lines.find? (fun p => p.1 == w)).map Prod.snd
                       | _ => none)⟩)
        else .error "KeyError: id"

/-- `nodes.append(ways)`: concatenate rows (aligning by column name, new
columns appended, missing cells NaN) and geometries. -/
def gdfAppend (a b : GeoDF) : GeoDF :=
  let cols := a.cols ++ b.cols.filter (fun c => ¬ a.cols.contains c)
  ⟨cols,
   a.rows.map (completeRow cols) ++ b.rows.map (completeRow cols),
   a.geoms ++ b.geoms⟩

/-- `render_to_gdf`: render the nodes, render the ways, and append the ways
to the nodes when there are any. -/
def render_to_gdf (osmdata : OSMData) (drop_untagged : Bool) : Except String GeoDF :=
  match render_nodes osmdata.nodes drop_untagged with
  | .error e => .error e
  | .ok nodes =>
    match render_ways osmdata.nodes osmdata.waynodes osmdata.waytags with
    | .error e => .error e
    | .ok none => .ok nodes
    | .ok (some ways) => .ok (gdfAppend nodes ways)

/-! ## XML parsing (`ET.fromstring`) and `read_osm` -/

/-- Characters allowed in XML names for this model. -/
def isNameChar (c : Char) : Bool :=
  c.isAlphanum || c == '_' || c == ':' || c == '-' || c == '.'

/-- Skip XML whitespace. -/
def xskipWs : List Char → List Char
  | [] => []
  | c :: cs => if c = ' ' ∨ c = '\n' ∨ c = '\t' ∨ c = '\r' then xskipWs cs else c :: cs

/-- Parse the attribute list of a start tag, up to `>` or `/>`. -/
def xattrs : Nat → List Char → Except String (List (String × String) × List Char)
  | 0, _ => .error "ParseError: input too deeply nested"
  | fuel + 1, cs =>
    match xskipWs cs with
    | [] => .error "ParseError: unexpected end of input"
    | '/' :: rest => .ok ([], '/' :: rest)
    | '>' :: rest => .ok ([], '>' :: rest)
    | cs1 =>
      match cs1.span isNameChar with
      | ([], _) => .error "ParseError: not well-formed"
      | (nm, cs2) =>
        match cs2 with
        | '=' :: '"' :: cs3 =>
          match cs3.span (fun c => ¬ c = '"') with
          | (v, '"' :: cs4) =>
            match xattrs fuel cs4 with
            | .error e => .error e
            | .ok (rest, cs5) => .ok ((String.mk nm, String.mk v) :: rest, cs5)
          | _ => .error "ParseError: unclosed token"
        | _ => .error "ParseError: not well-formed"

mutual

/-- Parse one element: `<name attrs/>` or `<name attrs> children </name>`. -/
def xelem : Nat → List Char → Except String (XElem × List Char)
  | 0, _ => .error "ParseError: input too deeply nested"
  | fuel + 1, cs =>
    match cs with
    | '<' :: cs1 =>
      match cs1.span isNameChar with
      | ([], _) => .error "ParseError: not well-formed"
      | (nm, cs2) =>
        match xattrs (fuel + 1) cs2 with
        | .error e => .error e
        | .ok (attrs, cs3) =>
          match cs3 with
          | '/' :: '>' :: cs4 => .ok (XElem.mk (String.mk nm) attrs [], cs4)
          | '>' :: cs4 =>
            match xchildren fuel cs4 with
            | .error e => .error e
            | .ok (children, cs5) =>
              match cs5 with
              | '<' :: '/' :: cs6 =>
                match cs6.span isNameChar with
                | (nm2, cs7) =>
                  if nm2 = nm then
                    match xskipWs cs7 with
                    | '>' :: cs8 => .ok (XElem.mk (String.mk nm) attrs children, cs8)
                    | _ => .error "ParseError: not well-formed"
                  else .error "ParseError: mismatched tag"
              | _ => .error "ParseError: no element found"
          | _ => .error "ParseError: not well-formed"
    | _ => .error "ParseError: not well-formed"

/-- Parse a sequence of child elements up to the enclosing close tag,
skipping interleaved text. -/
def xchildren : Nat → List Char → Except String (List XElem × List Char)
  | 0, _ => .error "ParseError: input too deeply nested"
  | fuel + 1, cs =>
    match cs.dropWhile (fun c => ¬ c = '<') with
    | '<' :: '/' :: rest => .ok ([], '<' :: '/' :: rest)
    | '<' :: rest =>
      match xelem fuel ('<' :: rest) with
      | .error e => .error e
      | .ok (e, cs2) =>
        match xchildren fuel cs2 with
        | .error e => .error e
        | .ok (es, cs3) => .ok (e :: es, cs3)
    | _ => .error "ParseError: no element found"

end

/-- Modelled from the spec: `ET.fromstring`, the external XML parser the
source calls in `read_osm` (§6: a byte buffer must be a well-formed XML
document, otherwise the parse step fails with a structural error).  A
minimal well-formed-XML parser: optional XML declaration, one document
element, only whitespace after it. -/
def ET_fromstring (content : String) : Except String XElem :=
  let cs := xskipWs content.toList
  let cs1 :=
    match cs with
    | '<' :: '?' :: rest => ((rest.dropWhile (fun c => ¬ c = '>')).drop 1)
    | _ => cs
  let cs2 := xskipWs cs1
  match xelem (cs2.length + 1) cs2 with
  | .error e => .error e
  | .ok (e, rest) =>
    if (xskipWs rest).isEmpty then .ok e
    else .error "ParseError: junk after document element"

/-- The result of `read_osm`: the five-table bundle (`render=False`) or the
rendered GeoDataFrame (`render=True`). -/
inductive OSMResult where
  | tables : OSMData → OSMResult
  | gdf : GeoDF → OSMResult
deriving Repr, DecidableEq

/-- `read_osm`: parse the XML, build the five tables, and optionally render
them to a single GeoDataFrame. -/
def read_osm (content : String) (render : Bool := true)
    (drop_untagged : Bool := true) : Except String OSMResult :=
  match ET_fromstring content with
  | .error e => .error e
  | .ok doc =>
    match read_nodes doc with
    | .error e => .error e
    | .ok nodes =>
      match read_ways doc with
      | .error e => .error e
      | .ok (waynodes, waytags) =>
        match read_relations doc with
        | .error e => .error e
        | .ok (relmembers, reltags) =>
          let data : OSMData := ⟨nodes, waynodes, waytags, relmembers, reltags⟩
          if render then
            match render_to_gdf data drop_untagged with
            | .error e => .error e
            | .ok g => .ok (.gdf g)
          else .ok (.tables data)

/-! ## Basic lemmas about records and dictionaries -/

instance {ε α : Type} [DecidableEq ε] [DecidableEq α] : DecidableEq (Except ε α) :=
  fun a b =>
    match a, b with
    | .ok x, .ok y =>
      match decEq x y with
      | isTrue h => isTrue (by rw [h])
      | isFalse h => isFalse (fun hh => h (by cases hh; rfl))
    | .error x, .error y =>
      match decEq x y with
      | isTrue h => isTrue (by rw [h])
      | isFalse h => isFalse (fun hh => h (by cases hh; rfl))
    | .ok _, .error _ => isFalse (fun hh => Except.noConfusion hh)
    | .error _, .ok _ => isFalse (fun hh => Except.noConfusion hh)

theorem alookup_append (r s : Row) (k : String) :
    alookup (r ++ s) k = (alookup r k).or (alookup s k) := by
  simp [alookup, List.find?_append, Option.or, Option.map]
  cases List.find? (fun p => p.1 == k) r <;> simp

theorem alookup_eq_none_of_not_mem {r : Row} {k : String} (h : k ∉ rowKeys r) :
    alookup r k = none := by
  induction r with
  | nil => rfl
  | cons p ps ih =>
    simp only [rowKeys, List.map_cons, List.mem_cons, not_or] at h
    simp only [alookup, List.find?]
    have hpk : (p.1 == k) = false := beq_eq_false_iff_ne.2 (fun hh => h.1 hh.symm)
    rw [hpk]
    exact ih (by simpa [rowKeys] using h.2)

theorem any_key_eq_alookup_isSome (r : Row) (k : String) :
    r.any (fun p => p.1 == k) = (alookup r k).isSome := by
  induction r with
  | nil => rfl
  | cons p ps ih =>
    simp only [List.any_cons, alookup, List.find?]
    cases hpk : (p.1 == k) <;> simp_all [alookup]

theorem alookup_map_update (r : Row) (k k' : String) (v : Val) :
    alookup (r.map (fun p => if p.1 == k then (p.1, v) else p)) k' =
      (alookup r k').map (fun old => if k' = k then v else old) := by
  induction r with
  | nil => rfl
  | cons p ps ih =>
    simp only [List.map_cons, alookup, List.find?]
    have hfst : (if p.1 == k then (p.1, v) else p).1 = p.1 := by
      split <;> rfl
    rw [hfst]
    cases hpk' : (p.1 == k') with
    | false => exact ih
    | true =>
      have hp1 : p.1 = k' := by simpa using hpk'
      by_cases hp : (p.1 == k) = true
      · have : k' = k := by rw [← hp1]; simpa using hp
        simp [hp, this]
      · have hne : ¬ k' = k := by
          rw [← hp1]
          simpa using hp
        simp [hp, hne]

theorem alookup_dictSet_self (r : Row) (k : String) (v : Val) :
    alookup (dictSet r k v) k = some v := by
  unfold dictSet
  by_cases h : r.any (fun p => p.1 == k) = true
  · rw [if_pos h, alookup_map_update]
    rw [any_key_eq_alookup_isSome] at h
    cases hlk : alookup r k with
    | none => rw [hlk] at h; simp at h
    | some w => simp
  · rw [if_neg h, alookup_append]
    rw [any_key_eq_alookup_isSome] at h
    cases hlk : alookup r k with
    | none => simp [Option.or, alookup, List.find?]
    | some w => rw [hlk] at h; simp at h

theorem alookup_dictSet_ne (r : Row) (k k' : String) (v : Val) (h : k' ≠ k) :
    alookup (dictSet r k v) k' = alookup r k' := by
  unfold dictSet
  by_cases hany : r.any (fun p => p.1 == k) = true
  · rw [if_pos hany, alookup_map_update]
    cases alookup r k' <;> simp [h]
  · rw [if_neg hany, alookup_append]
    have : alookup [(k, v)] k' = none := by
      simp [alookup, List.find?, beq_eq_false_iff_ne.2 (fun hh => h hh.symm)]
    rw [this]
    cases alookup r k' <;> simp [Option.or]

theorem rowKeys_map_update (r : Row) (k : String) (v : Val) :
    rowKeys (r.map (fun p => if p.1 == k then (p.1, v) else p)) = rowKeys r := by
  simp only [rowKeys, List.map_map]
  congr 1
  funext p
  show (if p.1 == k then (p.1, v) else p).1 = p.1
  split <;> rfl

theorem rowKeys_dictSet_mem {r : Row} {k c : String} {v : Val}
    (h : c ∈ rowKeys (dictSet r k v)) : c ∈ rowKeys r ∨ c = k := by
  unfold dictSet at h
  by_cases hany : r.any (fun p => p.1 == k) = true
  · rw [if_pos hany, rowKeys_map_update] at h
    exact Or.inl h
  · rw [if_neg hany] at h
    simp only [rowKeys, List.map_append] at h
    rcases List.mem_append.1 h with h | h
    · exact Or.inl h
    · simp at h
      exact Or.inr h

/-! ## Tracking keys and columns through the pipeline -/

theorem listMapE_ok_mem {α β : Type} {f : α → Except String β} {xs : List α}
    {ys : List β} (h : listMapE f xs = .ok ys) {y : β} (hy : y ∈ ys) :
    ∃ x ∈ xs, f x = .ok y := by
  induction xs generalizing ys with
  | nil =>
    simp only [listMapE] at h
    cases h
    simp at hy
  | cons x xs ih =>
    simp only [listMapE] at h
    cases hfx : f x with
    | error e => rw [hfx] at h; cases h
    | ok z =>
      rw [hfx] at h
      cases hrest : listMapE f xs with
      | error e => rw [hrest] at h; cases h
      | ok zs =>
        rw [hrest] at h
        cases h
        rcases List.mem_cons.1 hy with hy | hy
        · exact ⟨x, List.mem_cons_self x xs, by rw [hfx, hy]⟩
        · rcases ih hrest hy with ⟨x', hx', hfx'⟩
          exact ⟨x', List.mem_cons_of_mem x hx', hfx'⟩

theorem foldl_insert_key_mem {c : String} (d : Row) :
    ∀ acc : List String,
      c ∈ d.foldl (fun a p => if p.1 ∈ a then a else a ++ [p.1]) acc →
        c ∈ acc ∨ c ∈ rowKeys d := by
  induction d with
  | nil => exact fun acc h => Or.inl h
  | cons p ps ih =>
    intro acc h
    rw [List.foldl_cons] at h
    rcases ih _ h with h' | h'
    · by_cases hp : p.1 ∈ acc
      · rw [if_pos hp] at h'
        exact Or.inl h'
      · rw [if_neg hp] at h'
        rcases List.mem_append.1 h' with h' | h'
        · exact Or.inl h'
        · simp at h'
          exact Or.inr (by simp [rowKeys, h'])
    · exact Or.inr (by simp [rowKeys] at h' ⊢; exact Or.inr h')

theorem unionKeys_mem {ds : List Row} {c : String} (h : c ∈ unionKeys ds) :
    ∃ d ∈ ds, c ∈ rowKeys d := by
  unfold unionKeys at h
  suffices H : ∀ acc : List String,
      c ∈ ds.foldl (fun acc d => d.foldl (fun a p => if p.1 ∈ a then a else a ++ [p.1]) acc) acc →
        c ∈ acc ∨ ∃ d ∈ ds, c ∈ rowKeys d by
    rcases H [] h with h' | h'
    · simp at h'
    · exact h'
  clear h
  induction ds with
  | nil => exact fun acc h => Or.inl h
  | cons d ds ih =>
    intro acc h
    rw [List.foldl_cons] at h
    rcases ih (List.foldl (fun a p => if p.1 ∈ a then a else a ++ [p.1]) acc d) h
      with h' | h'
    · rcases foldl_insert_key_mem d acc h' with h'' | h''
      · exact Or.inl h''
      · exact Or.inr ⟨d, List.mem_cons_self d ds, h''⟩
    · rcases h' with ⟨d', hd', hc'⟩
      exact Or.inr ⟨d', List.mem_cons_of_mem d hd', hc'⟩

theorem element_to_dict_fold_keys {c : String} :
    ∀ (ts : List XElem) (d0 d : Row),
      (ts.foldlM (fun d t =>
        match attrLookup t.attrib "k", attrLookup t.attrib "v" with
        | some k, some v =>
            Except.ok (if k ∈ uninteresting_tags then d else dictSet d k (.str v))
        | _, _ => Except.error "KeyError: tag attribute") d0 = Except.ok d) →
      c ∈ rowKeys d → c ∈ rowKeys d0 ∨ c ∉ uninteresting_tags := by
  intro ts
  induction ts with
  | nil =>
    intro d0 d h hc
    simp only [List.foldlM_nil] at h
    cases h
    exact Or.inl hc
  | cons t ts ih =>
    intro d0 d h hc
    rw [List.foldlM_cons] at h
    cases hk : attrLookup t.attrib "k" with
    | none => simp only [hk] at h; cases h
    | some k =>
      cases hv : attrLookup t.attrib "v" with
      | none => simp only [hk, hv] at h; cases h
      | some v =>
        simp only [hk, hv] at h
        rw [show ((Except.ok (if k ∈ uninteresting_tags then d0 else dictSet d0 k (.str v)) :
            Except String Row) >>= fun d' => ts.foldlM _ d') =
            ts.foldlM _ (if k ∈ uninteresting_tags then d0 else dictSet d0 k (.str v))
          from rfl] at h
        rcases ih _ _ h hc with h' | h'
        · by_cases hku : k ∈ uninteresting_tags
          · rw [if_pos hku] at h'
            exact Or.inl h'
          · rw [if_neg hku] at h'
            rcases rowKeys_dictSet_mem h' with h'' | h''
            · exact Or.inl h''
            · subst h''
              exact Or.inr hku
        · exact Or.inr h'

theorem element_to_dict_keys {e : XElem} {d : Row} {c : String}
    (h : element_to_dict e = .ok d) (hc : c ∈ rowKeys d) :
    (∃ v, (c, v) ∈ e.attrib) ∨ c ∉ uninteresting_tags := by
  unfold element_to_dict at h
  rcases element_to_dict_fold_keys (e.findall "tag") _ _ h hc with h' | h'
  · left
    simp only [rowKeys, List.map_map, List.mem_map] at h'
    rcases h' with ⟨p, hp, hpc⟩
    exact ⟨p.2, by simpa [← hpc] using hp⟩
  · exact Or.inr h'

theorem wayNodeRow_keys {wayid : String} {i : Nat} {nd : XElem} {c : String}
    (h : c ∈ rowKeys (wayNodeRow wayid i nd)) :
    (∃ v, (c, v) ∈ nd.attrib) ∨ c = "id" ∨ c = "index" := by
  unfold wayNodeRow at h
  rcases rowKeys_dictSet_mem h with h' | h'
  · rcases rowKeys_dictSet_mem h' with h'' | h''
    · left
      simp only [rowKeys, List.map_map, List.mem_map] at h''
      rcases h'' with ⟨p, hp, hpc⟩
      exact ⟨p.2, by simpa [← hpc] using hp⟩
    · exact Or.inr (Or.inl h'')
  · exact Or.inr (Or.inr h')

theorem relMemberRow_keys {relid : String} {i : Nat} {m : XElem} {c : String}
    (h : c ∈ rowKeys (relMemberRow relid i m)) :
    (∃ v, (c, v) ∈ m.attrib) ∨ c = "id" ∨ c = "index" := by
  unfold relMemberRow at h
  rcases rowKeys_dictSet_mem h with h' | h'
  · rcases rowKeys_dictSet_mem h' with h'' | h''
    · left
      simp only [rowKeys, List.map_map, List.mem_map] at h''
      rcases h'' with ⟨p, hp, hpc⟩
      exact ⟨p.2, by simpa [← hpc] using hp⟩
    · exact Or.inr (Or.inl h'')
  · exact Or.inr (Or.inr h')

theorem dict_to_dataframe_cols {ds : List Row} {df : DataFrame}
    (h : dict_to_dataframe ds = .ok df) : df.cols = unionKeys ds := by
  unfold dict_to_dataframe at h
  by_cases hts : (unionKeys ds).contains "timestamp"
  · simp only [hts, if_true] at h
    cases hlm : listMapE (fun r =>
        match to_datetime (cell r "timestamp") with
        | .error e => .error e
        | .ok v => .ok (setCell r "timestamp" v)) (ds.map (completeRow (unionKeys ds))) with
    | error e => rw [hlm] at h; cases h
    | ok rows2 => rw [hlm] at h; cases h; rfl
  · simp only [hts, if_false] at h
    cases h
    rfl

theorem astypeFloatCol_cols {df : DataFrame} {c : String} {df' : DataFrame}
    (h : astypeFloatCol df c = .ok df') : df'.cols = df.cols := by
  unfold astypeFloatCol at h
  by_cases hc : df.cols.contains c
  · simp only [hc, if_true] at h
    cases hlm : listMapE (fun r =>
        match floatOfVal (cell r c) with
        | .error e => .error e
        | .ok v => .ok (setCell r c v)) df.rows with
    | error e => rw [hlm] at h; cases h
    | ok rows => rw [hlm] at h; cases h; rfl
  · simp only [hc, if_false] at h
    cases h

/-- Every column of the built Nodes table is an attribute key or a kept
(non-denylisted) tag key of some `node` element. -/
theorem read_nodes_cols {doc : XElem} {df : DataFrame} {c : String}
    (h : read_nodes doc = .ok df) (hc : c ∈ df.cols) :
    (∃ e ∈ doc.findall "node", ∃ v, (c, v) ∈ e.attrib) ∨ c ∉ uninteresting_tags := by
  unfold read_nodes at h
  split at h
  · cases h
  rename_i dicts hlm
  split at h
  · cases h
  rename_i df0 hdf
  split at h
  · cases h
  rename_i df1 hlon
  have hcols : df.cols = unionKeys dicts := by
    rw [astypeFloatCol_cols h, astypeFloatCol_cols hlon, dict_to_dataframe_cols hdf]
  rw [hcols] at hc
  rcases unionKeys_mem hc with ⟨d, hd, hcd⟩
  rcases listMapE_ok_mem hlm hd with ⟨e, he, hfe⟩
  rcases element_to_dict_keys hfe hcd with ⟨v, hv⟩ | h'
  · exact Or.inl ⟨e, he, v, hv⟩
  · exact Or.inr h'

theorem mem_of_mem_enum {α : Type} {l : List α} {p : Nat × α} (h : p ∈ l.enum) :
    p.2 ∈ l := by
  have := List.mem_map_of_mem Prod.snd h
  rwa [List.enum_map_snd] at this

/-- Every column of the built WayNodes table is an `nd` attribute key or
one of the injected `id`/`index` keys; every column of the built WayTags
table is a way attribute key or a kept tag key. -/
theorem read_ways_cols {doc : XElem} {wn wt : DataFrame} {c : String}
    (h : read_ways doc = .ok (wn, wt)) :
    (c ∈ wn.cols →
      (∃ w ∈ doc.findall "way", ∃ nd ∈ w.findall "nd", ∃ v, (c, v) ∈ nd.attrib) ∨
        c = "id" ∨ c = "index") ∧
    (c ∈ wt.cols →
      (∃ w ∈ doc.findall "way", ∃ v, (c, v) ∈ w.attrib) ∨ c ∉ uninteresting_tags) := by
  unfold read_ways at h
  split at h
  · cases h
  rename_i pairs hlm
  split at h
  · cases h
  rename_i wn0 hwn
  split at h
  · cases h
  rename_i wt0 hwt
  cases h
  constructor
  · intro hc
    rw [dict_to_dataframe_cols hwn] at hc
    rcases unionKeys_mem hc with ⟨row, hrow, hcrow⟩
    rcases List.mem_flatMap.1 hrow with ⟨pair, hpair, hrowin⟩
    rcases listMapE_ok_mem hlm hpair with ⟨w, hw, hfw⟩
    unfold way_rows at hfw
    split at hfw
    · cases hfw
    rename_i wayid hid
    split at hfw
    · cases hfw
    rename_i tags htags
    cases hfw
    rcases List.mem_map.1 hrowin with ⟨p, hp, hrw⟩
    rw [← hrw] at hcrow
    rcases wayNodeRow_keys hcrow with ⟨v, hv⟩ | h' | h'
    · exact Or.inl ⟨w, hw, p.2, mem_of_mem_enum hp, v, hv⟩
    · exact Or.inr (Or.inl h')
    · exact Or.inr (Or.inr h')
  · intro hc
    rw [dict_to_dataframe_cols hwt] at hc
    rcases unionKeys_mem hc with ⟨d, hd, hcd⟩
    rcases List.mem_map.1 hd with ⟨pair, hpair, hds⟩
    rcases listMapE_ok_mem hlm hpair with ⟨w, hw, hfw⟩
    unfold way_rows at hfw
    split at hfw
    · cases hfw
    rename_i wayid hid
    split at hfw
    · cases hfw
    rename_i tags htags
    cases hfw
    rw [← hds] at hcd
    rcases element_to_dict_keys htags hcd with ⟨v, hv⟩ | h'
    · exact Or.inl ⟨w, hw, v, hv⟩
    · exact Or.inr h'

/-- The relation-table analogue of `read_ways_cols`. -/
theorem read_relations_cols {doc : XElem} {rm rt : DataFrame} {c : String}
    (h : read_relations doc = .ok (rm, rt)) :
    (c ∈ rm.cols →
      (∃ r ∈ doc.findall "relation", ∃ m ∈ r.findall "member", ∃ v, (c, v) ∈ m.attrib) ∨
        c = "id" ∨ c = "index") ∧
    (c ∈ rt.cols →
      (∃ r ∈ doc.findall "relation", ∃ v, (c, v) ∈ r.attrib) ∨ c ∉ uninteresting_tags) := by
  unfold read_relations at h
  split at h
  · cases h
  rename_i pairs hlm
  split at h
  · cases h
  rename_i rm0 hrm
  split at h
  · cases h
  rename_i rt0 hrt
  cases h
  constructor
  · intro hc
    rw [dict_to_dataframe_cols hrm] at hc
    rcases unionKeys_mem hc with ⟨row, hrow, hcrow⟩
    rcases List.mem_flatMap.1 hrow with ⟨pair, hpair, hrowin⟩
    rcases listMapE_ok_mem hlm hpair with ⟨r, hr, hfr⟩
    unfold rel_rows at hfr
    split at hfr
    · cases hfr
    rename_i relid hid
    split at hfr
    · cases hfr
    rename_i tags htags
    cases hfr
    rcases List.mem_map.1 hrowin with ⟨p, hp, hrw⟩
    rw [← hrw] at hcrow
    rcases relMemberRow_keys hcrow with ⟨v, hv⟩ | h' | h'
    · exact Or.inl ⟨r, hr, p.2, mem_of_mem_enum hp, v, hv⟩
    · exact Or.inr (Or.inl h')
    · exact Or.inr (Or.inr h')
  · intro hc
    rw [dict_to_dataframe_cols hrt] at hc
    rcases unionKeys_mem hc with ⟨d, hd, hcd⟩
    rcases List.mem_map.1 hd with ⟨pair, hpair, hds⟩
    rcases listMapE_ok_mem hlm hpair with ⟨r, hr, hfr⟩
    unfold rel_rows at hfr
    split at hfr
    · cases hfr
    rename_i relid hid
    split at hfr
    · cases hfr
    rename_i tags htags
    cases hfr
    rw [← hds] at hcd
    rcases element_to_dict_keys htags hcd with ⟨v, hv⟩ | h'
    · exact Or.inl ⟨r, hr, v, hv⟩
    · exact Or.inr h'

theorem points_and_drop_cols {df : DataFrame} {g : GeoDF}
    (h : points_and_drop df = .ok g) {c : String} (hc : c ∈ g.cols) : c ∈ df.cols := by
  unfold points_and_drop at h
  split at h
  · cases h
    exact (List.mem_filter.1 hc).1
  · cases h

theorem render_nodes_cols {df : DataFrame} {du : Bool} {g : GeoDF}
    (h : render_nodes df du = .ok g) {c : String} (hc : c ∈ g.cols) : c ∈ df.cols := by
  unfold render_nodes at h
  split at h
  · split at h
    · exact points_and_drop_cols h hc
    · cases h
  · exact points_and_drop_cols h hc

theorem render_ways_cols {n wn wt : DataFrame} {g : GeoDF}
    (h : render_ways n wn wt = .ok (some g)) {c : String} (hc : c ∈ g.cols) :
    c = "id" ∨ c ∈ wt.cols := by
  unfold render_ways at h
  split at h
  · cases h
  split at h
  · cases h
  rename_i np hnp
  split at h
  · cases h
  rename_i wls hwls
  split at h
  · cases h
    rcases List.mem_cons.1 hc with h' | h'
    · exact Or.inl h'
    · exact Or.inr (List.mem_filter.1 h').1
  · cases h

theorem gdfAppend_cols {a b : GeoDF} {c : String} (hc : c ∈ (gdfAppend a b).cols) :
    c ∈ a.cols ∨ c ∈ b.cols := by
  unfold gdfAppend at hc
  rcases List.mem_append.1 hc with h | h
  · exact Or.inl h
  · exact Or.inr (List.mem_filter.1 h).1

theorem render_to_gdf_cols {data : OSMData} {du : Bool} {g : GeoDF}
    (h : render_to_gdf data du = .ok g) {c : String} (hc : c ∈ g.cols) :
    c ∈ data.nodes.cols ∨ c = "id" ∨ c ∈ data.waytags.cols := by
  unfold render_to_gdf at h
  split at h
  · cases h
  rename_i gn hgn
  split at h
  · cases h
  · rename_i hgw
    cases h
    exact Or.inl (render_nodes_cols hgn hc)
  · rename_i gw hgw
    cases h
    rcases gdfAppend_cols hc with h' | h'
    · exact Or.inl (render_nodes_cols hgn h')
    · exact Or.inr (render_ways_cols hgw h')

/-! ## Claim theorems: the easy ones -/

/-- C10: the rendered geometry output is built only from the Nodes,
WayNodes and WayTags tables: `render_to_gdf` yields identical output for
any two bundles that agree on those three tables, whatever their
RelationMembers and RelationTags tables hold, so relation rows never
contribute to the rendered geometry collection. -/
theorem claim_C10 (n wn wt rm rt rm2 rt2 : DataFrame) (du : Bool) :
    render_to_gdf ⟨n, wn, wt, rm, rt⟩ du = render_to_gdf ⟨n, wn, wt, rm2, rt2⟩ du := rfl

/-- C9: when the byte buffer fails to parse as XML, `read_osm` fails with
that structural parse error: the error short-circuits before any table is
built and no partial result is returned. -/
theorem claim_C9 (content : String) (e : String) (render du : Bool)
    (h : ET_fromstring content = .error e) :
    read_osm content render du = .error e := by
  unfold read_osm
  rw [h]

/-- Witness for C9 at the malformed buffer `"<node"`. -/
theorem claim_C9_witness :
    ET_fromstring "<node" = .error "ParseError: unexpected end of input" ∧
    read_osm "<node" true true = .error "ParseError: unexpected end of input" :=
  ⟨by rfl, claim_C9 "<node" _ true true (by rfl)⟩

/-- C4 as stated is false: a document with zero `node` elements makes
`read_nodes` raise (the empty Nodes frame has no `lon` column, so
`nodes['lon']` is a KeyError), rather than yielding an empty table. -/
theorem claim_C4_counterexample :
    read_nodes (XElem.mk "osm" [] []) = .error "KeyError: column" := rfl

/-- C4 amended: a document with zero `way` (resp. `relation`) elements
yields the corresponding empty tables (no rows, no columns) without
raising, but a document with zero `node` elements makes `read_nodes`
raise a missing-column error instead of returning an empty table. -/
theorem claim_C4_amended (doc : XElem) :
    (doc.findall "way" = [] → read_ways doc = .ok (⟨[], []⟩, ⟨[], []⟩)) ∧
    (doc.findall "relation" = [] → read_relations doc = .ok (⟨[], []⟩, ⟨[], []⟩)) ∧
    (doc.findall "node" = [] → ∃ e, read_nodes doc = .error e) := by
  refine ⟨fun h => ?_, fun h => ?_, fun h => ?_⟩
  · simp [read_ways, h, listMapE, dict_to_dataframe, unionKeys]
  · simp [read_relations, h, listMapE, dict_to_dataframe, unionKeys]
  · exact ⟨"KeyError: column", by
      simp [read_nodes, h, listMapE, dict_to_dataframe, unionKeys, astypeFloatCol]⟩

/-- Witness for the amended C4 at a concrete document with no children. -/
theorem claim_C4_amended_witness :
    read_ways (XElem.mk "osm" [] []) = .ok (⟨[], []⟩, ⟨[], []⟩) ∧
    read_relations (XElem.mk "osm" [] []) = .ok (⟨[], []⟩, ⟨[], []⟩) ∧
    (∃ e, read_nodes (XElem.mk "osm" [] []) = .error e) :=
  ⟨(claim_C4_amended (XElem.mk "osm" [] [])).1 rfl,
   (claim_C4_amended (XElem.mk "osm" [] [])).2.1 rfl,
   (claim_C4_amended (XElem.mk "osm" [] [])).2.2 rfl⟩

/-- An element whose native attributes avoid the denylisted keys. -/
abbrev attribClean (e : XElem) : Prop :=
  ∀ p ∈ e.attrib, p.1 ∉ uninteresting_tags

/-- C3 amended: when every denylisted key occurs only as a child `tag` key
— i.e. the native attributes of the `node`/`way`/`relation` elements and
of their `nd`/`member` children are free of denylisted keys, as in real
OSM documents — no denylisted key is a column of any of the five built
tables or of the rendered output.  (The claim as stated is false: a
denylisted key smuggled in as a native XML attribute is not filtered, see
the counterexample.) -/
theorem claim_C3_amended (doc : XElem)
    (hn : ∀ e ∈ doc.findall "node", attribClean e)
    (hw : ∀ w ∈ doc.findall "way", attribClean w ∧ ∀ nd ∈ w.findall "nd", attribClean nd)
    (hr : ∀ r ∈ doc.findall "relation", attribClean r ∧ ∀ m ∈ r.findall "member", attribClean m) :
    (∀ df, read_nodes doc = .ok df → ∀ c ∈ df.cols, c ∉ uninteresting_tags) ∧
    (∀ wn wt, read_ways doc = .ok (wn, wt) →
      (∀ c ∈ wn.cols, c ∉ uninteresting_tags) ∧
      (∀ c ∈ wt.cols, c ∉ uninteresting_tags)) ∧
    (∀ rm rt, read_relations doc = .ok (rm, rt) →
      (∀ c ∈ rm.cols, c ∉ uninteresting_tags) ∧
      (∀ c ∈ rt.cols, c ∉ uninteresting_tags)) ∧
    (∀ ndf wn wt rm rt du g,
      read_nodes doc = .ok ndf → read_ways doc = .ok (wn, wt) →
      read_relations doc = .ok (rm, rt) →
      render_to_gdf ⟨ndf, wn, wt, rm, rt⟩ du = .ok g →
      ∀ c ∈ g.cols, c ∉ uninteresting_tags) := by
  have hnodes : ∀ df, read_nodes doc = .ok df → ∀ c ∈ df.cols, c ∉ uninteresting_tags := by
    intro df h c hc
    rcases read_nodes_cols h hc with ⟨e, he, v, hv⟩ | h'
    · exact hn e he (c, v) hv
    · exact h'
  have hways : ∀ wn wt, read_ways doc = .ok (wn, wt) →
      (∀ c ∈ wn.cols, c ∉ uninteresting_tags) ∧
      (∀ c ∈ wt.cols, c ∉ uninteresting_tags) := by
    intro wn wt h
    constructor
    · intro c hc
      rcases (read_ways_cols h).1 hc with ⟨w, hmem, nd, hnd, v, hv⟩ | h' | h'
      · exact (hw w hmem).2 nd hnd (c, v) hv
      · subst h'; decide
      · subst h'; decide
    · intro c hc
      rcases (read_ways_cols h).2 hc with ⟨w, hmem, v, hv⟩ | h'
      · exact (hw w hmem).1 (c, v) hv
      · exact h'
  have hrels : ∀ rm rt, read_relations doc = .ok (rm, rt) →
      (∀ c ∈ rm.cols, c ∉ uninteresting_tags) ∧
      (∀ c ∈ rt.cols, c ∉ uninteresting_tags) := by
    intro rm rt h
    constructor
    · intro c hc
      rcases (read_relations_cols h).1 hc with ⟨r, hmem, m, hm, v, hv⟩ | h' | h'
      · exact (hr r hmem).2 m hm (c, v) hv
      · subst h'; decide
      · subst h'; decide
    · intro c hc
      rcases (read_relations_cols h).2 hc with ⟨r, hmem, v, hv⟩ | h'
      · exact (hr r hmem).1 (c, v) hv
      · exact h'
  refine ⟨hnodes, hways, hrels, ?_⟩
  intro ndf wn wt rm rt du g h1 h2 h3 h4 c hc
  rcases render_to_gdf_cols h4 hc with h' | h' | h'
  · exact hnodes ndf h1 c h'
  · subst h'; decide
  · exact (hways wn wt h2).2 c h'

/-- Witness for the amended C3: a node carrying a kept tag and a
denylisted `source` tag; the built table's columns avoid the denylist. -/
theorem claim_C3_amended_witness :
    read_nodes
        (XElem.mk "osm" []
          [XElem.mk "node" [("id", "1"), ("lat", "2"), ("lon", "3")]
            [XElem.mk "tag" [("k", "highway"), ("v", "crossing")] [],
             XElem.mk "tag" [("k", "source"), ("v", "Bing")] []]]) =
      .ok ⟨["id", "lat", "lon", "highway"],
           [[("id", .str "1"), ("lat", .rat 2), ("lon", .rat 3),
             ("highway", .str "crossing")]]⟩ ∧
    ∀ c ∈ ["id", "lat", "lon", "highway"], c ∉ uninteresting_tags := by
  constructor
  · decide
  · exact (claim_C3_amended
      (XElem.mk "osm" []
        [XElem.mk "node" [("id", "1"), ("lat", "2"), ("lon", "3")]
          [XElem.mk "tag" [("k", "highway"), ("v", "crossing")] [],
           XElem.mk "tag" [("k", "source"), ("v", "Bing")] []]])
      (by decide) (by decide) (by decide)).1
      ⟨["id", "lat", "lon", "highway"],
       [[("id", .str "1"), ("lat", .rat 2), ("lon", .rat 3),
         ("highway", .str "crossing")]]⟩ (by decide)

/-! ## The element flattener (C7) -/

/-- The `k`/`v` attribute pair of a `tag` child, when both are present. -/
def tagKV (t : XElem) : Option (String × String) :=
  match attrLookup t.attrib "k", attrLookup t.attrib "v" with
  | some k, some v => some (k, v)
  | _, _ => none

/-- One overlay step of the flattener: denylisted keys are skipped, other
tag pairs are written into the record. -/
def overlay (d : Row) (p : String × String) : Row :=
  if p.1 ∈ uninteresting_tags then d else dictSet d p.1 (.str p.2)

/-- The value of the last kept (non-denylisted) `tag` child with key `k`,
the one that wins the overlay. -/
def lastTagVal (e : XElem) (k : String) : Option String :=
  ((((e.findall "tag").filterMap tagKV).filter
      (fun p => ¬ p.1 ∈ uninteresting_tags)).reverse.find?
    (fun p => p.1 == k)).map Prod.snd

theorem alookup_map_str (a : List (String × String)) (k : String) :
    alookup (a.map (fun p => (p.1, Val.str p.2))) k = (attrLookup a k).map Val.str := by
  induction a with
  | nil => rfl
  | cons p ps ih =>
    simp only [List.map_cons, alookup, attrLookup, List.find?]
    cases hpk : (p.1 == k) with
    | true => simp
    | false => exact ih

theorem foldlM_tags_eq_foldl (ts : List XElem)
    (hwf : ∀ t ∈ ts, (tagKV t).isSome) (d0 : Row) :
    (ts.foldlM (fun d t =>
      match attrLookup t.attrib "k", attrLookup t.attrib "v" with
      | some k, some v =>
          Except.ok (if k ∈ uninteresting_tags then d else dictSet d k (.str v))
      | _, _ => Except.error "KeyError: tag attribute") d0 : Except String Row) =
      .ok ((ts.filterMap tagKV).foldl overlay d0) := by
  induction ts generalizing d0 with
  | nil => rfl
  | cons t ts ih =>
    have ht := hwf t (List.mem_cons_self t ts)
    rw [List.foldlM_cons]
    cases hk : attrLookup t.attrib "k" with
    | none => rw [tagKV, hk] at ht; simp at ht
    | some k =>
      cases hv : attrLookup t.attrib "v" with
      | none => rw [tagKV, hk, hv] at ht; simp at ht
      | some v =>
        have htkv : tagKV t = some (k, v) := by rw [tagKV, hk, hv]
        simp only [hk, hv]
        rw [show ((Except.ok (if k ∈ uninteresting_tags then d0 else dictSet d0 k (.str v)) :
            Except String Row) >>= fun d' => ts.foldlM _ d') =
            ts.foldlM _ (if k ∈ uninteresting_tags then d0 else dictSet d0 k (.str v))
          from rfl]
        rw [ih (fun t' ht' => hwf t' (List.mem_cons_of_mem t ht'))]
        rw [List.filterMap_cons, htkv]
        rfl

theorem foldl_overlay_alookup (ps : List (String × String)) (d0 : Row) (k : String) :
    alookup (ps.foldl overlay d0) k =
      match ((ps.filter (fun p => ¬ p.1 ∈ uninteresting_tags)).reverse.find?
          (fun p => p.1 == k)).map Prod.snd with
      | some v => some (.str v)
      | none => alookup d0 k := by
  induction ps generalizing d0 with
  | nil => rfl
  | cons p ps ih =>
    rw [List.foldl_cons, ih (overlay d0 p)]
    by_cases hkept : p.1 ∈ uninteresting_tags
    · rw [List.filter_cons, if_neg (by simp [hkept])]
      rw [show overlay d0 p = d0 from by simp [overlay, hkept]]
    · rw [List.filter_cons, if_pos (by simp [hkept])]
      rw [List.reverse_cons, List.find?_append]
      have hov : overlay d0 p = dictSet d0 p.1 (.str p.2) := by simp [overlay, hkept]
      cases hfind : ((ps.filter (fun p => ¬ p.1 ∈ uninteresting_tags)).reverse.find?
          (fun p => p.1 == k)) with
      | some q => simp [Option.or]
      | none =>
        simp only [Option.or, Option.map]
        rw [hov]
        cases hpk : (p.1 == k) with
        | true =>
          have : p.1 = k := by simpa using hpk
          subst this
          simp [List.find?, hpk, alookup_dictSet_self]
        | false =>
          have hne : k ≠ p.1 := by
            intro hh
            rw [hh] at hpk
            simp at hpk
          simp [List.find?, hpk, alookup_dictSet_ne d0 p.1 k (.str p.2) hne]

/-- C7: for every element whose `tag` children carry `k` and `v`
attributes, the Element Flattener succeeds and returns the flat record
seeded from the element's native attributes and overlaid with every
non-denylisted tag pair, the last tag with a given key winning — so a tag
key colliding with a native attribute wins, and an element with zero tags
yields exactly its native attributes. -/
theorem claim_C7 (e : XElem)
    (hwf : ∀ t ∈ e.findall "tag", (tagKV t).isSome) :
    ∃ d, element_to_dict e = .ok d ∧
      ∀ k, alookup d k =
        match lastTagVal e k with
        | some v => some (.str v)
        | none => (attrLookup e.attrib k).map Val.str := by
  refine ⟨((e.findall "tag").filterMap tagKV).foldl overlay
      (e.attrib.map (fun p => (p.1, Val.str p.2))), ?_, ?_⟩
  · unfold element_to_dict
    exact foldlM_tags_eq_foldl _ hwf _
  · intro k
    rw [foldl_overlay_alookup, alookup_map_str]
    rfl

/-- Witness for C7: the round-trip node with tags `{highway: crossing}`;
`highway` flattens to `"crossing"` and `id`/`lat`/`lon` are preserved. -/
theorem claim_C7_witness :
    ∃ d,
      element_to_dict
          (XElem.mk "node" [("id", "1"), ("lat", "42.36"), ("lon", "-71.09")]
            [XElem.mk "tag" [("k", "highway"), ("v", "crossing")] []]) = .ok d ∧
      alookup d "highway" = some (.str "crossing") ∧
      alookup d "id" = some (.str "1") ∧
      alookup d "lat" = some (.str "42.36") ∧
      alookup d "lon" = some (.str "-71.09") := by
  rcases claim_C7
      (XElem.mk "node" [("id", "1"), ("lat", "42.36"), ("lon", "-71.09")]
        [XElem.mk "tag" [("k", "highway"), ("v", "crossing")] []])
      (by decide) with ⟨d, hd, hl⟩
  refine ⟨d, hd, ?_, ?_, ?_, ?_⟩
  · rw [hl "highway"]; rfl
  · rw [hl "id"]; rfl
  · rw [hl "lat"]; rfl
  · rw [hl "lon"]; rfl

/-! ## Type coercion errors (C8) -/

theorem listMapE_ok_forward {α β : Type} {f : α → Except String β} {xs : List α}
    {ys : List β} (h : listMapE f xs = .ok ys) {x : α} (hx : x ∈ xs) {y : β}
    (hfx : f x = .ok y) : y ∈ ys := by
  induction xs generalizing ys with
  | nil => simp at hx
  | cons a as ih =>
    simp only [listMapE] at h
    cases hfa : f a with
    | error e => rw [hfa] at h; cases h
    | ok b =>
      rw [hfa] at h
      cases hrest : listMapE f as with
      | error e => rw [hrest] at h; cases h
      | ok bs =>
        rw [hrest] at h
        cases h
        rcases List.mem_cons.1 hx with hx | hx
        · subst hx
          rw [hfa] at hfx
          cases hfx
          exact List.mem_cons_self _ _
        · exact List.mem_cons_of_mem b (ih hrest hx)

theorem listMapE_error_mem {α β : Type} {f : α → Except String β} {xs : List α}
    {x : α} (hx : x ∈ xs) {err : String} (hfx : f x = .error err) :
    ∀ ys, listMapE f xs ≠ .ok ys := by
  induction xs with
  | nil => simp at hx
  | cons a as ih =>
    intro ys h
    simp only [listMapE] at h
    cases hfa : f a with
    | error e => rw [hfa] at h; cases h
    | ok b =>
      rw [hfa] at h
      cases hrest : listMapE f as with
      | error e => rw [hrest] at h; cases h
      | ok bs =>
        rcases List.mem_cons.1 hx with hx | hx
        · subst hx
          rw [hfa] at hfx
          cases hfx
        · exact ih hx bs hrest

theorem alookup_isSome_mem_keys {r : Row} {c : String} {v : Val}
    (h : alookup r c = some v) : c ∈ rowKeys r := by
  induction r with
  | nil => cases h
  | cons p ps ih =>
    simp only [alookup, List.find?] at h
    cases hpk : (p.1 == c) with
    | true =>
      have : p.1 = c := by simpa using hpk
      simp [rowKeys, this]
    | false =>
      rw [hpk] at h
      exact List.mem_cons_of_mem _ (ih h)

theorem foldl_insert_key_superset {c : String} (d : Row) (acc : List String)
    (h : c ∈ acc) :
    c ∈ d.foldl (fun a p => if p.1 ∈ a then a else a ++ [p.1]) acc := by
  induction d generalizing acc with
  | nil => exact h
  | cons p ps ih =>
    rw [List.foldl_cons]
    apply ih
    by_cases hp : p.1 ∈ acc
    · rwa [if_pos hp]
    · rw [if_neg hp]
      exact List.mem_append_left _ h

theorem foldl_insert_key_adds {c : String} (d : Row) (acc : List String)
    (h : c ∈ rowKeys d) :
    c ∈ d.foldl (fun a p => if p.1 ∈ a then a else a ++ [p.1]) acc := by
  induction d generalizing acc with
  | nil => simp [rowKeys] at h
  | cons p ps ih =>
    rw [List.foldl_cons]
    rcases List.mem_cons.1 h with h' | h'
    · apply foldl_insert_key_superset
      by_cases hp : p.1 ∈ acc
      · rw [if_pos hp]; rw [h']; exact hp
      · rw [if_neg hp]
        rw [h']
        exact List.mem_append_right _ (List.mem_singleton.2 rfl)
    · exact ih _ h'

theorem mem_unionKeys {ds : List Row} {d : Row} {c : String}
    (hd : d ∈ ds) (hc : c ∈ rowKeys d) : c ∈ unionKeys ds := by
  unfold unionKeys
  suffices H : ∀ acc : List String, c ∈ acc ∨ d ∈ ds →
      c ∈ ds.foldl (fun acc d => d.foldl (fun a p => if p.1 ∈ a then a else a ++ [p.1]) acc) acc from
    H [] (Or.inr hd)
  clear hd
  induction ds with
  | nil =>
    intro acc h
    rcases h with h | h
    · exact h
    · simp at h
  | cons d' ds ih =>
    intro acc h
    rw [List.foldl_cons]
    rcases h with h | h
    · exact ih _ (Or.inl (foldl_insert_key_superset d' acc h))
    · rcases List.mem_cons.1 h with h' | h'
      · refine ih _ (Or.inl ?_)
        rw [← h']
        exact foldl_insert_key_adds d acc hc
      · exact ih _ (Or.inr h')

theorem alookup_completeRow (cols : List String) (d : Row) {c : String}
    (hc : c ∈ cols) :
    alookup (completeRow cols d) c = some ((alookup d c).getD .null) := by
  induction cols with
  | nil => simp at hc
  | cons c' cs ih =>
    simp only [completeRow, List.map_cons, alookup, List.find?]
    cases hck : (c' == c) with
    | true =>
      have : c' = c := by simpa using hck
      simp [this]
    | false =>
      have hne : c' ≠ c := by simpa using hck
      refine ih ?_
      rcases List.mem_cons.1 hc with h | h
      · exact absurd h.symm hne
      · exact h

theorem alookup_setCell_ne {r : Row} {c c' : String} {v : Val} (h : c' ≠ c) :
    alookup (setCell r c v) c' = alookup r c' := by
  unfold setCell
  rw [show (fun p : String × Val => if p.1 == c then (p.1, v) else p) =
      (fun p : String × Val => if p.1 == c then (p.1, v) else p) from rfl]
  rw [alookup_map_update r c c' v]
  cases alookup r c' <;> simp [h]

/-- If some record's `timestamp` value is an unparseable string, the
table construction (`_dict_to_dataframe`) cannot succeed. -/
theorem dict_to_dataframe_bad_timestamp {ds : List Row} {d : Row} {s : String}
    (hd : d ∈ ds) (hts : alookup d "timestamp" = some (.str s))
    (hbad : parseTimestamp s = none) :
    ∀ df, dict_to_dataframe ds ≠ .ok df := by
  intro df h
  have hmem : "timestamp" ∈ unionKeys ds :=
    mem_unionKeys hd (alookup_isSome_mem_keys hts)
  unfold dict_to_dataframe at h
  rw [if_pos (List.elem_eq_true_of_mem hmem)] at h
  have hcr : completeRow (unionKeys ds) d ∈ ds.map (completeRow (unionKeys ds)) :=
    List.mem_map_of_mem _ hd
  have hcell : cell (completeRow (unionKeys ds) d) "timestamp" = .str s := by
    unfold cell
    rw [alookup_completeRow _ _ hmem, hts]
    rfl
  have hstep : (fun r =>
      match to_datetime (cell r "timestamp") with
      | .error e => Except.error e
      | .ok v => Except.ok (setCell r "timestamp" v)) (completeRow (unionKeys ds) d) =
      (.error "ValueError: could not parse timestamp" : Except String Row) := by
    simp only [hcell, to_datetime, hbad]
  cases hlm : listMapE (fun r =>
      match to_datetime (cell r "timestamp") with
      | .error e => Except.error e
      | .ok v => Except.ok (setCell r "timestamp" v)) (ds.map (completeRow (unionKeys ds))) with
  | error e => rw [hlm] at h; cases h
  | ok rows2 => exact listMapE_error_mem hcr hstep rows2 hlm

/-- Each input record survives `_dict_to_dataframe` as a row whose cells
other than `timestamp` are the record's values (NaN when absent). -/
theorem dict_to_dataframe_ok_cell {ds : List Row} {df : DataFrame}
    (h : dict_to_dataframe ds = .ok df) {d : Row} (hd : d ∈ ds) {c : String}
    (hc : c ≠ "timestamp") :
    ∃ r ∈ df.rows, alookup r c = alookup (completeRow (unionKeys ds) d) c := by
  unfold dict_to_dataframe at h
  by_cases hts : (unionKeys ds).contains "timestamp"
  · rw [if_pos hts] at h
    cases hlm : listMapE (fun r =>
        match to_datetime (cell r "timestamp") with
        | .error e => Except.error e
        | .ok v => Except.ok (setCell r "timestamp" v)) (ds.map (completeRow (unionKeys ds))) with
    | error e => rw [hlm] at h; cases h
    | ok rows2 =>
      rw [hlm] at h
      cases h
      have hcr : completeRow (unionKeys ds) d ∈ ds.map (completeRow (unionKeys ds)) :=
        List.mem_map_of_mem _ hd
      cases hdt : to_datetime (cell (completeRow (unionKeys ds) d) "timestamp") with
      | error e =>
        exfalso
        have hstep : (fun r =>
            match to_datetime (cell r "timestamp") with
            | Except.error e => Except.error e
            | Except.ok v => Except.ok (setCell r "timestamp" v))
            (completeRow (unionKeys ds) d) = (.error e : Except String Row) := by
          simp only [hdt]
        exact listMapE_error_mem hcr hstep rows2 hlm
      | ok v =>
        refine ⟨setCell (completeRow (unionKeys ds) d) "timestamp" v, ?_, ?_⟩
        · refine listMapE_ok_forward hlm hcr ?_
          simp only [hdt]
        · exact alookup_setCell_ne hc
  · rw [if_neg hts] at h
    cases h
    exact ⟨completeRow (unionKeys ds) d, List.mem_map_of_mem _ hd, rfl⟩

/-- C8: a value destined for a typed column that cannot be parsed as its
type — a node's flattened `lon` or `lat` that is not a float literal, or
a `timestamp` that is not a datetime — makes `read_nodes` raise instead
of returning an untyped table. -/
theorem claim_C8 (doc : XElem) (e : XElem) (d : Row) (s : String)
    (he : e ∈ doc.findall "node") (hd : element_to_dict e = .ok d)
    (hbad : (alookup d "lon" = some (.str s) ∧ parseFloat s = none) ∨
            (alookup d "lat" = some (.str s) ∧ parseFloat s = none) ∨
            (alookup d "timestamp" = some (.str s) ∧ parseTimestamp s = none)) :
    ∃ err, read_nodes doc = .error err := by
  cases hrn : read_nodes doc with
  | error err => exact ⟨err, rfl⟩
  | ok df =>
    exfalso
    unfold read_nodes at hrn
    split at hrn
    · cases hrn
    rename_i dicts hlm
    split at hrn
    · cases hrn
    rename_i df0 hdf
    split at hrn
    · cases hrn
    rename_i df1 hlon
    have hdm : d ∈ dicts := listMapE_ok_forward hlm he hd
    rcases hbad with ⟨hv, hbadp⟩ | ⟨hv, hbadp⟩ | ⟨hv, hbadp⟩
    · -- bad lon: the lon coercion cannot succeed
      rcases dict_to_dataframe_ok_cell hdf hdm (c := "lon") (by decide)
        with ⟨r0, hr0, hl0⟩
      have hcell : cell r0 "lon" = .str s := by
        unfold cell
        rw [hl0, alookup_completeRow _ _
          (mem_unionKeys hdm (alookup_isSome_mem_keys hv)), hv]
        rfl
      unfold astypeFloatCol at hlon
      split at hlon
      · have hstep : (fun r =>
            match floatOfVal (cell r "lon") with
            | .error e => Except.error e
            | .ok v => Except.ok (setCell r "lon" v)) r0 =
            (.error "ValueError: could not convert string to float" : Except String Row) := by
          simp only [hcell, floatOfVal, hbadp]
        cases hlm2 : listMapE (fun r =>
            match floatOfVal (cell r "lon") with
            | .error e => Except.error e
            | .ok v => Except.ok (setCell r "lon" v)) df0.rows with
        | error err => rw [hlm2] at hlon; cases hlon
        | ok rows => exact listMapE_error_mem hr0 hstep rows hlm2
      · cases hlon
    · -- bad lat: survive the lon coercion, then the lat coercion fails
      rcases dict_to_dataframe_ok_cell hdf hdm (c := "lat") (by decide)
        with ⟨r0, hr0, hl0⟩
      have halat : alookup r0 "lat" = some (.str s) := by
        rw [hl0, alookup_completeRow _ _
          (mem_unionKeys hdm (alookup_isSome_mem_keys hv)), hv]
        rfl
      unfold astypeFloatCol at hlon
      split at hlon
      · cases hlm2 : listMapE (fun r =>
            match floatOfVal (cell r "lon") with
            | .error e => Except.error e
            | .ok v => Except.ok (setCell r "lon" v)) df0.rows with
        | error err => rw [hlm2] at hlon; cases hlon
        | ok rows =>
          rw [hlm2] at hlon
          cases hlon
          cases hfv : floatOfVal (cell r0 "lon") with
          | error err =>
            have hstep : (fun r =>
                match floatOfVal (cell r "lon") with
                | Except.error e => Except.error e
                | Except.ok v => Except.ok (setCell r "lon" v)) r0 =
                (.error err : Except String Row) := by
              simp only [hfv]
            exact listMapE_error_mem hr0 hstep rows hlm2
          | ok v =>
            have hr1 : setCell r0 "lon" v ∈ rows := by
              refine listMapE_ok_forward hlm2 hr0 ?_
              simp only [hfv]
            have hcell1 : cell (setCell r0 "lon" v) "lat" = .str s := by
              unfold cell
              rw [alookup_setCell_ne (by decide), halat]
              rfl
            unfold astypeFloatCol at hrn
            split at hrn
            · have hstep : (fun r =>
                  match floatOfVal (cell r "lat") with
                  | .error e => Except.error e
                  | .ok v => Except.ok (setCell r "lat" v)) (setCell r0 "lon" v) =
                  (.error "ValueError: could not convert string to float" :
                    Except String Row) := by
                simp only [hcell1, floatOfVal, hbadp]
              cases hlm3 : listMapE (fun r =>
                  match floatOfVal (cell r "lat") with
                  | .error e => Except.error e
                  | .ok v => Except.ok (setCell r "lat" v)) rows with
              | error err => rw [hlm3] at hrn; cases hrn
              | ok rows2 => exact listMapE_error_mem hr1 hstep rows2 hlm3
            · cases hrn
      · cases hlon
    · -- bad timestamp: the table build itself cannot succeed
      exact dict_to_dataframe_bad_timestamp hdm hv hbadp df0 hdf

/-- Witness for C8: a node whose `lon` is the non-numeric string `"abc"`;
`read_nodes` fails. -/
theorem claim_C8_witness :
    ∃ err,
      read_nodes
          (XElem.mk "osm" []
            [XElem.mk "node" [("id", "1"), ("lat", "2"), ("lon", "abc")] []]) =
        .error err :=
  claim_C8
    (XElem.mk "osm" [] [XElem.mk "node" [("id", "1"), ("lat", "2"), ("lon", "abc")] []])
    (XElem.mk "node" [("id", "1"), ("lat", "2"), ("lon", "abc")] [])
    [("id", .str "1"), ("lat", .str "2"), ("lon", .str "abc")]
    "abc"
    (List.Mem.head _)
    (by decide)
    (Or.inl ⟨by decide, by decide⟩)

/-! ## Untagged nodes (C6) -/

/-- C6: with `id`/`lon`/`lat` present in the Nodes table, `render_nodes`
with the drop-untagged flag keeps exactly the rows with some non-null cell
outside `id`/`lon`/`lat` — so a node whose only non-null columns are
`id`/`lon`/`lat` is absent from the point output; with the flag disabled
every row appears, with a `Point(lon, lat)` geometry; in both
configurations the `lon`/`lat` columns (and cells) are dropped. -/
theorem claim_C6 (df : DataFrame) (r : Row)
    (hid : df.cols.contains "id" = true)
    (hlon : df.cols.contains "lon" = true)
    (hlat : df.cols.contains "lat" = true)
    (hr : r ∈ df.rows)
    (huntagged : ∀ c ∈ df.cols, ¬ (c = "id" ∨ c = "lon" ∨ c = "lat") → cell r c = .null) :
    (render_nodes df true = .ok
        ⟨df.cols.filter (fun c => ¬ (c = "lon" ∨ c = "lat")),
         (df.rows.filter (keptByDropna
             (df.cols.filter (fun c => ¬ (c = "id" ∨ c = "lon" ∨ c = "lat"))))).map
           (fun r => r.filter (fun p => ¬ (p.1 = "lon" ∨ p.1 = "lat"))),
         (df.rows.filter (keptByDropna
             (df.cols.filter (fun c => ¬ (c = "id" ∨ c = "lon" ∨ c = "lat"))))).map
           (fun r => some (Geom.point (cell r "lon") (cell r "lat")))⟩ ∧
      keptByDropna (df.cols.filter (fun c => ¬ (c = "id" ∨ c = "lon" ∨ c = "lat"))) r =
        false) ∧
    render_nodes df false = .ok
      ⟨df.cols.filter (fun c => ¬ (c = "lon" ∨ c = "lat")),
       df.rows.map (fun r => r.filter (fun p => ¬ (p.1 = "lon" ∨ p.1 = "lat"))),
       df.rows.map (fun r => some (Geom.point (cell r "lon") (cell r "lat")))⟩ := by
  have hnotkept : keptByDropna
      (df.cols.filter (fun c => ¬ (c = "id" ∨ c = "lon" ∨ c = "lat"))) r = false := by
    unfold keptByDropna
    rw [List.any_eq_false]
    intro c hc
    rcases List.mem_filter.1 hc with ⟨hcmem, hcnot⟩
    have : cell r c = .null := huntagged c hcmem (by simpa using hcnot)
    simp [this]
  refine ⟨⟨?_, hnotkept⟩, ?_⟩
  · unfold render_nodes
    rw [if_pos rfl, if_pos ⟨hid, hlon, hlat⟩]
    unfold points_and_drop
    rw [if_pos ⟨hlon, hlat⟩]
  · unfold render_nodes
    rw [if_neg (by simp)]
    unfold points_and_drop
    rw [if_pos ⟨hlon, hlat⟩]

/-- Witness for C6: a table with one tagged and one untagged node; the
untagged node is dropped when the flag is on and rendered as a bare point
when it is off; `lon`/`lat` are gone either way. -/
theorem claim_C6_witness :
    render_nodes
        ⟨["id", "lat", "lon", "highway"],
         [[("id", .str "1"), ("lat", .rat 11), ("lon", .rat 10), ("highway", .str "crossing")],
          [("id", .str "2"), ("lat", .rat 21), ("lon", .rat 20), ("highway", .null)]]⟩
        true =
      .ok ⟨["id", "highway"],
           [[("id", .str "1"), ("highway", .str "crossing")]],
           [some (.point (.rat 10) (.rat 11))]⟩ ∧
    render_nodes
        ⟨["id", "lat", "lon", "highway"],
         [[("id", .str "1"), ("lat", .rat 11), ("lon", .rat 10), ("highway", .str "crossing")],
          [("id", .str "2"), ("lat", .rat 21), ("lon", .rat 20), ("highway", .null)]]⟩
        false =
      .ok ⟨["id", "highway"],
           [[("id", .str "1"), ("highway", .str "crossing")],
            [("id", .str "2"), ("highway", .null)]],
           [some (.point (.rat 10) (.rat 11)), some (.point (.rat 20) (.rat 21))]⟩ := by
  have h := claim_C6
    ⟨["id", "lat", "lon", "highway"],
     [[("id", .str "1"), ("lat", .rat 11), ("lon", .rat 10), ("highway", .str "crossing")],
      [("id", .str "2"), ("lat", .rat 21), ("lon", .rat 20), ("highway", .null)]]⟩
    [("id", .str "2"), ("lat", .rat 21), ("lon", .rat 20), ("highway", .null)]
    (by decide) (by decide) (by decide)
    (by exact List.mem_cons_of_mem _ (List.Mem.head _))
    (by decide)
  refine ⟨?_, ?_⟩
  · rw [h.1.1]; decide
  · rw [h.2]; decide

/-! ## The way reader (C2) -/

theorem listMapE_ok_length {α β : Type} {f : α → Except String β} {xs : List α}
    {ys : List β} (h : listMapE f xs = .ok ys) : ys.length = xs.length := by
  induction xs generalizing ys with
  | nil => simp only [listMapE] at h; cases h; rfl
  | cons a as ih =>
    simp only [listMapE] at h
    cases hfa : f a with
    | error e => rw [hfa] at h; cases h
    | ok b =>
      rw [hfa] at h
      cases hrest : listMapE f as with
      | error e => rw [hrest] at h; cases h
      | ok bs =>
        rw [hrest] at h
        cases h
        simp [ih hrest]

theorem listMapE_ok_get {α β : Type} {f : α → Except String β} {xs : List α}
    {ys : List β} (h : listMapE f xs = .ok ys) {i : Nat} {x : α}
    (hx : xs[i]? = some x) : ∃ y, ys[i]? = some y ∧ f x = .ok y := by
  induction xs generalizing ys i with
  | nil => simp at hx
  | cons a as ih =>
    simp only [listMapE] at h
    cases hfa : f a with
    | error e => rw [hfa] at h; cases h
    | ok b =>
      rw [hfa] at h
      cases hrest : listMapE f as with
      | error e => rw [hrest] at h; cases h
      | ok bs =>
        rw [hrest] at h
        cases h
        cases i with
        | zero =>
          simp at hx
          subst hx
          exact ⟨b, by simp, hfa⟩
        | succ j =>
          simp only [List.getElem?_cons_succ] at hx ⊢
          exact ih hrest hx

theorem listMapE_ok_eq_map {α β : Type} [Inhabited β] {f : α → Except String β}
    {xs : List α} {ys : List β} (h : listMapE f xs = .ok ys) :
    ys = xs.map (fun x => match f x with | .ok y => y | .error _ => default) := by
  induction xs generalizing ys with
  | nil => simp only [listMapE] at h; cases h; rfl
  | cons a as ih =>
    simp only [listMapE] at h
    cases hfa : f a with
    | error e => rw [hfa] at h; cases h
    | ok b =>
      rw [hfa] at h
      cases hrest : listMapE f as with
      | error e => rw [hrest] at h; cases h
      | ok bs =>
        rw [hrest] at h
        cases h
        rw [List.map_cons, hfa, ← ih hrest]

theorem listMapE_ok_all {α β : Type} {f : α → Except String β} {xs : List α}
    {ys : List β} (h : listMapE f xs = .ok ys) {x : α} (hx : x ∈ xs) :
    ∃ y, f x = .ok y := by
  cases hfx : f x with
  | error err => exact absurd h (listMapE_error_mem hx hfx ys)
  | ok y => exact ⟨y, rfl⟩

theorem rowKeys_completeRow (cols : List String) (d : Row) :
    rowKeys (completeRow cols d) = cols := by
  unfold rowKeys completeRow
  rw [List.map_map]
  rw [show (Prod.fst ∘ fun c => (c, (alookup d c).getD Val.null)) = id from
    funext (fun c => rfl)]
  exact List.map_id cols

theorem cell_completeRow_mem {ds : List Row} {d : Row} (hd : d ∈ ds) (c : String) :
    cell (completeRow (unionKeys ds) d) c = cell d c := by
  by_cases hc : c ∈ unionKeys ds
  · unfold cell
    rw [alookup_completeRow _ _ hc]
    rfl
  · have hnk : c ∉ rowKeys d := fun hmem => hc (mem_unionKeys hd hmem)
    have h1 : alookup (completeRow (unionKeys ds) d) c = none := by
      apply alookup_eq_none_of_not_mem
      rw [rowKeys_completeRow]
      exact hc
    unfold cell
    rw [h1, alookup_eq_none_of_not_mem hnk]

/-- `_dict_to_dataframe` acts as a per-record map: the rows are the input
records in order, completed over the union of keys, with only the
`timestamp` cell possibly rewritten. -/
theorem dict_to_dataframe_ok_map {ds : List Row} {df : DataFrame}
    (h : dict_to_dataframe ds = .ok df) :
    ∃ Φ : Row → Row, df.rows = ds.map Φ ∧
      ∀ d ∈ ds, ∀ c, c ≠ "timestamp" → cell (Φ d) c = cell d c := by
  unfold dict_to_dataframe at h
  by_cases hts : (unionKeys ds).contains "timestamp"
  · rw [if_pos hts] at h
    cases hlm : listMapE (fun r =>
        match to_datetime (cell r "timestamp") with
        | .error e => Except.error e
        | .ok v => Except.ok (setCell r "timestamp" v)) (ds.map (completeRow (unionKeys ds))) with
    | error e => rw [hlm] at h; cases h
    | ok rows2 =>
      rw [hlm] at h
      cases h
      refine ⟨(fun r => match to_datetime (cell r "timestamp") with
          | .ok v => setCell r "timestamp" v
          | .error _ => default) ∘ completeRow (unionKeys ds), ?_, ?_⟩
      · dsimp only
        rw [listMapE_ok_eq_map hlm, List.map_map]
        congr 1
        funext r
        simp only [Function.comp_apply]
        cases hdt : to_datetime (cell (completeRow (unionKeys ds) r) "timestamp") <;>
          simp [hdt]
      · intro d hd c hc
        have hmem : completeRow (unionKeys ds) d ∈ ds.map (completeRow (unionKeys ds)) :=
          List.mem_map_of_mem _ hd
        rcases listMapE_ok_all hlm hmem with ⟨r', hr'⟩
        cases hdt : to_datetime (cell (completeRow (unionKeys ds) d) "timestamp") with
        | error e =>
          rw [hdt] at hr'
          cases hr'
        | ok v =>
          show cell (match to_datetime (cell (completeRow (unionKeys ds) d) "timestamp") with
            | .ok v => setCell (completeRow (unionKeys ds) d) "timestamp" v
            | .error _ => default) c = cell d c
          rw [hdt]
          unfold cell
          rw [alookup_setCell_ne hc]
          rw [show alookup (completeRow (unionKeys ds) d) c =
            alookup (completeRow (unionKeys ds) d) c from rfl]
          have := cell_completeRow_mem hd c
          unfold cell at this
          exact this
  · rw [if_neg hts] at h
    cases h
    exact ⟨completeRow (unionKeys ds), rfl, fun d hd c _ => cell_completeRow_mem hd c⟩

/-- C2: for every way with N `nd` children, `read_ways` contributes one
contiguous block of exactly N WayNodes rows, in `nd` document order, with
`index` cells exactly `0..N-1`, `id` cells the owning way's id and `ref`
cells the referenced node ids (a way with zero `nd` children contributes
an empty block); and exactly one WayTags row per way. -/
theorem claim_C2 (doc : XElem) (wn wt : DataFrame)
    (h : read_ways doc = .ok (wn, wt)) :
    wt.rows.length = (doc.findall "way").length ∧
    ∃ blocks : List (List Row),
      wn.rows = blocks.flatten ∧
      blocks.length = (doc.findall "way").length ∧
      ∀ (i : Nat) (w : XElem) (b : List Row),
        (doc.findall "way")[i]? = some w → blocks[i]? = some b →
        ∃ wayid, attrLookup w.attrib "id" = some wayid ∧
          b.length = (w.findall "nd").length ∧
          ∀ (j : Nat) (nd : XElem) (row : Row),
            (w.findall "nd")[j]? = some nd → b[j]? = some row →
            cell row "index" = .int j ∧
            cell row "id" = .str wayid ∧
            cell row "ref" = ((attrLookup nd.attrib "ref").map Val.str).getD .null := by
  unfold read_ways at h
  split at h
  · cases h
  rename_i pairs hlm
  split at h
  · cases h
  rename_i wn0 hwn
  split at h
  · cases h
  rename_i wt0 hwt
  cases h
  constructor
  · rcases dict_to_dataframe_ok_map hwt with ⟨Φ, hrows, _⟩
    rw [hrows, List.length_map, List.length_map]
    exact listMapE_ok_length hlm
  · rcases dict_to_dataframe_ok_map hwn with ⟨Φ, hrows, hcells⟩
    refine ⟨pairs.map (fun pr => pr.1.map Φ), ?_, ?_, ?_⟩
    · rw [hrows, ← List.flatMap_def]
      rw [List.map_flatMap]
    · rw [List.length_map]
      exact listMapE_ok_length hlm
    · intro i w b hw hb
      rw [List.getElem?_map] at hb
      rcases listMapE_ok_get hlm hw with ⟨pr, hpr, hfw⟩
      rw [hpr] at hb
      simp only [Option.map] at hb
      cases hb
      unfold way_rows at hfw
      split at hfw
      · cases hfw
      rename_i wayid hid
      split at hfw
      · cases hfw
      rename_i tags htags
      cases hfw
      refine ⟨wayid, hid, ?_, ?_⟩
      · simp [List.enum_length]
      · intro j nd row hnd hrow
        rw [List.getElem?_map, List.getElem?_map, List.getElem?_enum, hnd] at hrow
        simp only [Option.map] at hrow
        cases hrow
        have hmem : wayNodeRow wayid j nd ∈ pairs.flatMap Prod.fst := by
          refine List.mem_flatMap.2 ⟨((w.findall "nd").enum.map
            (fun p => wayNodeRow wayid p.1 p.2), tags), List.getElem?_mem hpr, ?_⟩
          refine List.mem_map.2 ⟨(j, nd), ?_, rfl⟩
          apply List.getElem?_mem
          rw [List.getElem?_enum, hnd]
          rfl
        have hidx : cell (wayNodeRow wayid j nd) "index" = .int j := by
          unfold wayNodeRow cell
          rw [alookup_dictSet_self]
          rfl
        have hwid : cell (wayNodeRow wayid j nd) "id" = .str wayid := by
          unfold wayNodeRow cell
          rw [alookup_dictSet_ne _ _ _ _ (by decide), alookup_dictSet_self]
          rfl
        have href : cell (wayNodeRow wayid j nd) "ref" =
            ((attrLookup nd.attrib "ref").map Val.str).getD .null := by
          unfold wayNodeRow cell
          rw [alookup_dictSet_ne _ _ _ _ (by decide),
            alookup_dictSet_ne _ _ _ _ (by decide), alookup_map_str]
        refine ⟨?_, ?_, ?_⟩
        · rw [hcells _ hmem _ (by decide), hidx]
        · rw [hcells _ hmem _ (by decide), hwid]
        · rw [hcells _ hmem _ (by decide), href]

/-- Witness for C2: a way with three node references and one tag. -/
theorem claim_C2_witness :
    read_ways
        (XElem.mk "osm" []
          [XElem.mk "way" [("id", "9")]
            [XElem.mk "nd" [("ref", "1")] [],
             XElem.mk "nd" [("ref", "2")] [],
             XElem.mk "nd" [("ref", "3")] [],
             XElem.mk "tag" [("k", "highway"), ("v", "residential")] []]]) =
      .ok (⟨["ref", "id", "index"],
            [[("ref", .str "1"), ("id", .str "9"), ("index", .int 0)],
             [("ref", .str "2"), ("id", .str "9"), ("index", .int 1)],
             [("ref", .str "3"), ("id", .str "9"), ("index", .int 2)]]⟩,
           ⟨["id", "highway"],
            [[("id", .str "9"), ("highway", .str "residential")]]⟩) ∧
    (∃ blocks : List (List Row),
      [[("ref", Val.str "1"), ("id", Val.str "9"), ("index", Val.int 0)],
       [("ref", Val.str "2"), ("id", Val.str "9"), ("index", Val.int 1)],
       [("ref", Val.str "3"), ("id", Val.str "9"), ("index", Val.int 2)]] = blocks.flatten ∧
      blocks.length = 1 ∧
      ∀ (i : Nat) (w : XElem) (b : List Row),
        ((XElem.mk "osm" []
          [XElem.mk "way" [("id", "9")]
            [XElem.mk "nd" [("ref", "1")] [],
             XElem.mk "nd" [("ref", "2")] [],
             XElem.mk "nd" [("ref", "3")] [],
             XElem.mk "tag" [("k", "highway"), ("v", "residential")] []]]).findall "way")[i]? =
            some w →
          blocks[i]? = some b →
          ∃ wayid, attrLookup w.attrib "id" = some wayid ∧
            b.length = (w.findall "nd").length ∧
            ∀ (j : Nat) (nd : XElem) (row : Row),
              (w.findall "nd")[j]? = some nd → b[j]? = some row →
              cell row "index" = .int j ∧
              cell row "id" = .str wayid ∧
              cell row "ref" = ((attrLookup nd.attrib "ref").map Val.str).getD .null) := by
  have hread : read_ways
      (XElem.mk "osm" []
        [XElem.mk "way" [("id", "9")]
          [XElem.mk "nd" [("ref", "1")] [],
           XElem.mk "nd" [("ref", "2")] [],
           XElem.mk "nd" [("ref", "3")] [],
           XElem.mk "tag" [("k", "highway"), ("v", "residential")] []]]) =
      .ok (⟨["ref", "id", "index"],
            [[("ref", .str "1"), ("id", .str "9"), ("index", .int 0)],
             [("ref", .str "2"), ("id", .str "9"), ("index", .int 1)],
             [("ref", .str "3"), ("id", .str "9"), ("index", .int 2)]]⟩,
           ⟨["id", "highway"],
            [[("id", .str "9"), ("highway", .str "residential")]]⟩) := by decide
  refine ⟨hread, ?_⟩
  have h2 := (claim_C2 _ _ _ hread).2
  exact h2

/-! ## Way rendering: the order-preserving join (C1, C5) -/

theorem filter_flatMap {α β : Type} (l : List α) (f : α → List β) (p : β → Bool) :
    (l.flatMap f).filter p = l.flatMap (fun x => (f x).filter p) := by
  induction l with
  | nil => rfl
  | cons x xs ih => simp [List.flatMap_cons, List.filter_append, ih]

theorem flatMap_if_guard {α β : Type} (l : List α) (p : α → Bool) (f : α → List β) :
    l.flatMap (fun x => if p x then f x else []) = (l.filter p).flatMap f := by
  induction l with
  | nil => rfl
  | cons x xs ih =>
    rw [List.flatMap_cons, List.filter_cons]
    by_cases hp : p x
    · rw [if_pos hp, if_pos hp, List.flatMap_cons, ih]
    · rw [if_neg hp, if_neg hp, List.nil_append, ih]

theorem filter_eq_if_of_all {β : Type} (l : List β) (p : β → Bool) (b : Bool)
    (h : ∀ e ∈ l, p e = b) : l.filter p = if b then l else [] := by
  induction l with
  | nil => cases b <;> rfl
  | cons x xs ih =>
    rw [List.filter_cons, h x (List.mem_cons_self x xs),
      ih (fun e he => h e (List.mem_cons_of_mem x he))]
    cases b <;> rfl

theorem insertByKey_lt (p : Nat × Row) (l : List (Nat × Row))
    (h : ∀ q ∈ l, p.1 < q.1) : insertByKey p l = p :: l := by
  cases l with
  | nil => rfl
  | cons q qs =>
    unfold insertByKey
    rw [if_pos (h q (List.mem_cons_self q qs))]

theorem sortByKey_sorted (l : List (Nat × Row))
    (h : List.Pairwise (fun a b => a.1 < b.1) l) : sortByKey l = l := by
  induction l with
  | nil => rfl
  | cons p ps ih =>
    unfold sortByKey
    rw [ih (List.Pairwise.of_cons h), insertByKey_lt p ps (List.pairwise_cons.1 h).1]

theorem mem_strInsert {c s : String} {l : List String} :
    c ∈ strInsert s l ↔ c = s ∨ c ∈ l := by
  induction l with
  | nil => simp [strInsert]
  | cons t ts ih =>
    unfold strInsert
    cases h1 : strLt s t with
    | true =>
      rw [if_pos rfl]
      simp [List.mem_cons]
    | false =>
      rw [if_neg Bool.false_ne_true]
      by_cases h2 : s = t
      · rw [if_pos h2]
        subst h2
        simp only [List.mem_cons]
        constructor
        · exact fun h => Or.inr h
        · rintro (h | h)
          · exact Or.inl h
          · exact h
      · rw [if_neg h2]
        simp only [List.mem_cons, ih]
        tauto

theorem mem_groupKeys_iff {rows : List Row} {w : String} :
    w ∈ groupKeys rows ↔ ∃ r ∈ rows, cell r "id" = .str w := by
  unfold groupKeys
  suffices H : ∀ acc : List String,
      w ∈ rows.foldl (fun acc r =>
        match cell r "id" with
        | .str s => strInsert s acc
        | _ => acc) acc ↔ w ∈ acc ∨ ∃ r ∈ rows, cell r "id" = .str w by
    rw [H []]
    simp
  induction rows with
  | nil => intro acc; simp
  | cons r rs ih =>
    intro acc
    rw [List.foldl_cons]
    cases hc : cell r "id" with
    | str s =>
      rw [ih (strInsert s acc)]
      constructor
      · rintro (h | h)
        · rcases mem_strInsert.1 h with h' | h'
          · exact Or.inr ⟨r, List.mem_cons_self r rs, by rw [hc, h']⟩
          · exact Or.inl h'
        · rcases h with ⟨r', hr', hcr'⟩
          exact Or.inr ⟨r', List.mem_cons_of_mem r hr', hcr'⟩
      · rintro (h | h)
        · exact Or.inl (mem_strInsert.2 (Or.inr h))
        · rcases h with ⟨r', hr', hcr'⟩
          rcases List.mem_cons.1 hr' with h' | h'
          · subst h'
            rw [hc] at hcr'
            cases hcr'
            exact Or.inl (mem_strInsert.2 (Or.inl rfl))
          · exact Or.inr ⟨r', h', hcr'⟩
    | int n =>
      rw [ih acc]
      constructor
      · rintro (h | h)
        · exact Or.inl h
        · rcases h with ⟨r', hr', hcr'⟩
          exact Or.inr ⟨r', List.mem_cons_of_mem r hr', hcr'⟩
      · rintro (h | h)
        · exact Or.inl h
        · rcases h with ⟨r', hr', hcr'⟩
          rcases List.mem_cons.1 hr' with h' | h'
          · subst h'; rw [hc] at hcr'; cases hcr'
          · exact Or.inr ⟨r', h', hcr'⟩
    | rat q =>
      rw [ih acc]
      constructor
      · rintro (h | h)
        · exact Or.inl h
        · rcases h with ⟨r', hr', hcr'⟩
          exact Or.inr ⟨r', List.mem_cons_of_mem r hr', hcr'⟩
      · rintro (h | h)
        · exact Or.inl h
        · rcases h with ⟨r', hr', hcr'⟩
          rcases List.mem_cons.1 hr' with h' | h'
          · subst h'; rw [hc] at hcr'; cases hcr'
          · exact Or.inr ⟨r', h', hcr'⟩
    | time t =>
      rw [ih acc]
      constructor
      · rintro (h | h)
        · exact Or.inl h
        · rcases h with ⟨r', hr', hcr'⟩
          exact Or.inr ⟨r', List.mem_cons_of_mem r hr', hcr'⟩
      · rintro (h | h)
        · exact Or.inl h
        · rcases h with ⟨r', hr', hcr'⟩
          rcases List.mem_cons.1 hr' with h' | h'
          · subst h'; rw [hc] at hcr'; cases hcr'
          · exact Or.inr ⟨r', h', hcr'⟩
    | null =>
      rw [ih acc]
      constructor
      · rintro (h | h)
        · exact Or.inl h
        · rcases h with ⟨r', hr', hcr'⟩
          exact Or.inr ⟨r', List.mem_cons_of_mem r hr', hcr'⟩
      · rintro (h | h)
        · exact Or.inl h
        · rcases h with ⟨r', hr', hcr'⟩
          rcases List.mem_cons.1 hr' with h' | h'
          · subst h'; rw [hc] at hcr'; cases hcr'
          · exact Or.inr ⟨r', h', hcr'⟩

/-- The `groupby.apply` result: absent keys are absent; each present key
maps to its group's `wayline` value. -/
theorem listMapE_keyed_find {F : String → Except String Geom} {ks : List String}
    {ys : List (String × Geom)}
    (h : listMapE (fun k =>
      match F k with
      | .error e => .error e
      | .ok g => .ok (k, g)) ks = .ok ys) (w : String) :
    (w ∉ ks → ys.find? (fun p => p.1 == w) = none) ∧
    (w ∈ ks → ∃ g, F w = .ok g ∧ ys.find? (fun p => p.1 == w) = some (w, g)) := by
  induction ks generalizing ys with
  | nil =>
    simp only [listMapE] at h
    cases h
    exact ⟨fun _ => rfl, fun h => by simp at h⟩
  | cons k ks ih =>
    simp only [listMapE] at h
    cases hFk : F k with
    | error e => rw [hFk] at h; cases h
    | ok g =>
      rw [hFk] at h
      cases hrest : listMapE (fun k =>
          match F k with
          | .error e => .error e
          | .ok g => .ok (k, g)) ks with
      | error e => rw [hrest] at h; cases h
      | ok zs =>
        rw [hrest] at h
        cases h
        constructor
        · intro hnot
          have hkw : (k == w) = false := by
            simp only [List.mem_cons, not_or] at hnot
            simp [beq_eq_false_iff_ne]
            exact fun hh => hnot.1 hh.symm
          simp only [List.find?, hkw]
          exact (ih hrest).1 (by simp only [List.mem_cons, not_or] at hnot; exact hnot.2)
        · intro hmem
          by_cases hkw : k = w
          · subst hkw
            refine ⟨g, hFk, ?_⟩
            simp [List.find?]
          · have hkwb : (k == w) = false := by
              simp [beq_eq_false_iff_ne]
              exact hkw
            simp only [List.find?, hkwb]
            exact (ih hrest).2 (by
              rcases List.mem_cons.1 hmem with h' | h'
              · exact absurd h'.symm hkw
              · exact h')

theorem alookup_isSome_of_mem_keys {r : Row} {c : String} (h : c ∈ rowKeys r) :
    ∃ v, alookup r c = some v := by
  induction r with
  | nil => simp [rowKeys] at h
  | cons p ps ih =>
    simp only [alookup, List.find?]
    cases hpk : (p.1 == c) with
    | true => exact ⟨p.2, rfl⟩
    | false =>
      rcases List.mem_cons.1 h with h' | h'
      · exfalso
        rw [h'] at hpk
        simp at hpk
      · exact ih h'

theorem alookup_of_cell_ne_null {r : Row} {c : String} (h : ¬ cell r c = .null) :
    alookup r c = some (cell r c) := by
  unfold cell at h ⊢
  cases halk : alookup r c with
  | none => rw [halk] at h; exact absurd rfl h
  | some v => rfl

theorem cell_append_left {r r' : Row} {c : String} {v : Val}
    (h : alookup r c = some v) : cell (r ++ r') c = v := by
  unfold cell
  rw [alookup_append, h]
  rfl

theorem cell_append_right {r r' : Row} {c : String} (h : alookup r c = none) :
    cell (r ++ r') c = cell r' c := by
  unfold cell
  rw [alookup_append, h]
  cases alookup r' c <;> rfl

theorem filter_map_comm {α β : Type} (l : List α) (f : α → β) (p : β → Bool) :
    (l.map f).filter p = (l.filter (fun x => p (f x))).map f := by
  induction l with
  | nil => rfl
  | cons x xs ih =>
    rw [List.map_cons, List.filter_cons, List.filter_cons]
    by_cases hp : p (f x)
    · rw [if_pos hp, if_pos hp, List.map_cons, ih]
    · rw [if_neg hp, if_neg hp, ih]

/-- The per-node row produced by `nodes[['id', 'lon', 'lat']]`. -/
def selRow (r : Row) : Row :=
  ["id", "lon", "lat"].map (fun c => (c, cell r c))

theorem cell_selRow_id (r : Row) : cell (selRow r) "id" = cell r "id" := rfl

theorem flatMap_congr_mem {α β : Type} {l : List α} {f g : α → List β}
    (h : ∀ x ∈ l, f x = g x) : l.flatMap f = l.flatMap g := by
  induction l with
  | nil => rfl
  | cons x xs ih =>
    rw [List.flatMap_cons, List.flatMap_cons, h x (List.mem_cons_self x xs),
      ih (fun x hx => h x (List.mem_cons_of_mem _ hx))]

/-- The group of way `w` after the inner merge: each WayNodes row of `w`,
in order, joined with every node row whose `id` equals its `ref`. -/
theorem merge_group_structure (n wn : DataFrame) (w : String)
    (hid : "id" ∈ wn.cols)
    (hkeys : ∀ r ∈ wn.rows, rowKeys r = wn.cols) :
    ((mergeInner wn ⟨["id", "lon", "lat"], n.rows.map selRow⟩ "ref" "id" "_nodes").rows.filter
        (fun r => cell r "id" == Val.str w)) =
      (wn.rows.filter (fun r => cell r "id" == Val.str w)).flatMap
        (fun lr => ((n.rows.map selRow).filter
            (fun rr => cell rr "id" == cell lr "ref")).map
          (fun rr => lr ++ rr.map
            (fun p => (mergeRen wn.cols ["id", "lon", "lat"] "_nodes" p.1, p.2)))) := by
  unfold mergeInner
  rw [filter_flatMap]
  rw [flatMap_congr_mem (g := fun lr =>
      if cell lr "id" == Val.str w then
        ((n.rows.map selRow).filter (fun rr => cell rr "id" == cell lr "ref")).map
          (fun rr => lr ++ rr.map
            (fun p => (mergeRen wn.cols ["id", "lon", "lat"] "_nodes" p.1, p.2)))
      else []) ?_]
  · rw [flatMap_if_guard]
  · intro lr hlr
    apply filter_eq_if_of_all
    intro e he
    rcases List.mem_map.1 he with ⟨rr, hrr, hrfl⟩
    have hidk : "id" ∈ rowKeys lr := by rw [hkeys lr hlr]; exact hid
    rcases alookup_isSome_of_mem_keys hidk with ⟨v, hv⟩
    rw [← hrfl]
    have hce : cell (lr ++ rr.map
        (fun p => (mergeRen wn.cols ["id", "lon", "lat"] "_nodes" p.1, p.2))) "id" =
        cell lr "id" := by
      rw [cell_append_left hv]
      unfold cell
      rw [hv]
      rfl
    rw [hce]

theorem contains_filter_false {l : List String} {c : String} {f : String → Bool}
    (h : c ∉ l) : (l.filter f).contains c = false := by
  cases hcon : (l.filter f).contains c with
  | false => rfl
  | true =>
    exfalso
    exact h (List.mem_filter.1 (List.mem_of_elem_eq_true hcon)).1

theorem cell_renSel_lon (wnCols : List String) (hlon : "lon" ∉ wnCols) (nr : Row) :
    cell ((selRow nr).map
        (fun p => (mergeRen wnCols ["id", "lon", "lat"] "_nodes" p.1, p.2))) "lon" =
      cell nr "lon" := by
  show cell [(mergeRen wnCols ["id", "lon", "lat"] "_nodes" "id", cell nr "id"),
    (mergeRen wnCols ["id", "lon", "lat"] "_nodes" "lon", cell nr "lon"),
    (mergeRen wnCols ["id", "lon", "lat"] "_nodes" "lat", cell nr "lat")] "lon" = cell nr "lon"
  have h1 : mergeRen wnCols ["id", "lon", "lat"] "_nodes" "lon" = "lon" := by
    unfold mergeRen
    rw [contains_filter_false hlon]
    rfl
  have h2 : (mergeRen wnCols ["id", "lon", "lat"] "_nodes" "id" == "lon") = false := by
    unfold mergeRen
    split <;> decide
  unfold cell alookup
  simp only [List.find?, h2, h1]
  rfl

theorem cell_renSel_lat (wnCols : List String) (hlon : "lon" ∉ wnCols)
    (hlat : "lat" ∉ wnCols) (nr : Row) :
    cell ((selRow nr).map
        (fun p => (mergeRen wnCols ["id", "lon", "lat"] "_nodes" p.1, p.2))) "lat" =
      cell nr "lat" := by
  show cell [(mergeRen wnCols ["id", "lon", "lat"] "_nodes" "id", cell nr "id"),
    (mergeRen wnCols ["id", "lon", "lat"] "_nodes" "lon", cell nr "lon"),
    (mergeRen wnCols ["id", "lon", "lat"] "_nodes" "lat", cell nr "lat")] "lat" = cell nr "lat"
  have h1 : mergeRen wnCols ["id", "lon", "lat"] "_nodes" "lat" = "lat" := by
    unfold mergeRen
    rw [contains_filter_false hlat]
    rfl
  have h2 : (mergeRen wnCols ["id", "lon", "lat"] "_nodes" "id" == "lat") = false := by
    unfold mergeRen
    split <;> decide
  have h3 : (mergeRen wnCols ["id", "lon", "lat"] "_nodes" "lon" == "lat") = false := by
    unfold mergeRen
    split <;> decide
  unfold cell alookup
  simp only [List.find?, h2, h3, h1]
  rfl

/-- The merged group rows of a way, related position-by-position to the
way's matched references: dangling references contribute nothing, matched
references contribute one row carrying the node's coordinates. -/
theorem group_rows_forall2 (n : DataFrame) (wnCols : List String)
    (m : String → Bool) (coordOf : String → Val × Val)
    (hlon : "lon" ∉ wnCols) (hlat : "lat" ∉ wnCols)
    {pairs : List (Nat × String)} {L : List Row}
    (hw : List.Forall₂ (fun (p : Nat × String) (lr : Row) =>
        cell lr "index" = Val.int p.1 ∧ cell lr "ref" = Val.str p.2) pairs L)
    (hkeysL : ∀ lr ∈ L, rowKeys lr = wnCols)
    (hnode : ∀ p ∈ pairs,
      (m p.2 = true → ∃ nr, n.rows.filter (fun r => cell r "id" == Val.str p.2) = [nr] ∧
        cell nr "lon" = (coordOf p.2).1 ∧ cell nr "lat" = (coordOf p.2).2) ∧
      (m p.2 = false → n.rows.filter (fun r => cell r "id" == Val.str p.2) = [])) :
    List.Forall₂ (fun (p : Nat × String) (e : Row) =>
        cell e "index" = Val.int p.1 ∧
        cell e "lon" = (coordOf p.2).1 ∧ cell e "lat" = (coordOf p.2).2)
      (pairs.filter (fun p => m p.2))
      (L.flatMap (fun lr => ((n.rows.map selRow).filter
          (fun rr => cell rr "id" == cell lr "ref")).map
        (fun rr => lr ++ rr.map
          (fun p => (mergeRen wnCols ["id", "lon", "lat"] "_nodes" p.1, p.2))))) := by
  induction hw with
  | nil => exact List.Forall₂.nil
  | @cons p lr ps L' hpl hrest ih =>
    rw [List.flatMap_cons, List.filter_cons]
    have hsel : (n.rows.map selRow).filter (fun rr => cell rr "id" == cell lr "ref") =
        (n.rows.filter (fun r => cell r "id" == Val.str p.2)).map selRow := by
      rw [hpl.2, filter_map_comm]
      rfl
    have hkl := hkeysL lr (List.mem_cons_self lr L')
    have hih := ih (fun lr' hlr' => hkeysL lr' (List.mem_cons_of_mem lr hlr'))
      (fun p' hp' => hnode p' (List.mem_cons_of_mem p hp'))
    cases hm : m p.2 with
    | false =>
      rw [if_neg (by simp [hm])]
      rw [hsel, ((hnode p (List.mem_cons_self p ps)).2 hm)]
      rw [List.map_nil, List.map_nil, List.nil_append]
      exact hih
    | true =>
      rw [if_pos (by simp [hm])]
      rcases (hnode p (List.mem_cons_self p ps)).1 hm with ⟨nr, hnr, hnlon, hnlat⟩
      rw [hsel, hnr, List.map_cons, List.map_nil, List.map_cons, List.map_nil,
        List.singleton_append]
      refine List.Forall₂.cons ⟨?_, ?_, ?_⟩ hih
      · have hne : ¬ cell lr "index" = Val.null := by rw [hpl.1]; exact fun h => by cases h
        rw [cell_append_left (alookup_of_cell_ne_null hne), hpl.1]
      · have hnone : alookup lr "lon" = none :=
          alookup_eq_none_of_not_mem (by rw [hkl]; exact hlon)
        rw [cell_append_right hnone, cell_renSel_lon wnCols hlon nr, hnlon]
      · have hnone : alookup lr "lat" = none :=
          alookup_eq_none_of_not_mem (by rw [hkl]; exact hlat)
        rw [cell_append_right hnone, cell_renSel_lat wnCols hlon hlat nr, hnlat]

/-- `wayline` on a group whose rows carry strictly increasing integer
`index` cells: the sort is the identity and the line is the coordinate
sequence in index order; a single surviving coordinate is an error. -/
theorem wayline_of_forall2 {coordOf : String → Val × Val}
    {fpairs : List (Nat × String)} {gw : List Row}
    (hf : List.Forall₂ (fun (p : Nat × String) (e : Row) =>
        cell e "index" = Val.int p.1 ∧
        cell e "lon" = (coordOf p.2).1 ∧ cell e "lat" = (coordOf p.2).2) fpairs gw)
    (hsorted : List.Pairwise (fun a b => a.1 < b.1) fpairs) :
    wayline gw = if fpairs.length = 1
      then .error "ValueError: LineString with one coordinate"
      else .ok (.line (fpairs.map (fun p => ((coordOf p.2).1, (coordOf p.2).2)))) := by
  have hkeyed : listMapE (fun r =>
      match cell r "index" with
      | .int n => .ok (n, r)
      | _ => .error "TypeError: unsortable index") gw =
      .ok (List.zipWith (fun (p : Nat × String) (e : Row) => (p.1, e)) fpairs gw) := by
    clear hsorted
    induction hf with
    | nil => rfl
    | @cons p e ps es hpe hrest ih =>
      rw [List.zipWith_cons_cons]
      simp only [listMapE, hpe.1, ih]
  have hfst : (List.zipWith (fun (p : Nat × String) (e : Row) => (p.1, e)) fpairs gw).map
      Prod.fst = fpairs.map Prod.fst := by
    clear hsorted hkeyed
    induction hf with
    | nil => rfl
    | @cons p e ps es hpe hrest ih =>
      rw [List.zipWith_cons_cons, List.map_cons, List.map_cons, ih]
  have hzsorted : List.Pairwise (fun a b => a.1 < b.1)
      (List.zipWith (fun (p : Nat × String) (e : Row) => (p.1, e)) fpairs gw) := by
    rw [← List.pairwise_map (f := Prod.fst), hfst, List.pairwise_map]
    exact hsorted
  have hcoords : (List.zipWith (fun (p : Nat × String) (e : Row) => (p.1, e)) fpairs gw).map
      (fun q => (cell q.2 "lon", cell q.2 "lat")) =
      fpairs.map (fun p => ((coordOf p.2).1, (coordOf p.2).2)) := by
    clear hsorted hkeyed hfst hzsorted
    induction hf with
    | nil => rfl
    | @cons p e ps es hpe hrest ih =>
      rw [List.zipWith_cons_cons, List.map_cons, List.map_cons, ih, hpe.2.1, hpe.2.2]
  unfold wayline
  rw [hkeyed]
  show (if ((sortByKey (List.zipWith (fun (p : Nat × String) (e : Row) => (p.1, e)) fpairs gw)).map
      (fun q => (cell q.2 "lon", cell q.2 "lat"))).length = 1 then _ else _) = _
  rw [sortByKey_sorted _ hzsorted, hcoords, List.length_map]

/-- The central specification of `render_ways` for one way `w` whose
WayNodes rows carry strictly increasing integer `index` cells and refs
`pairs.map Prod.snd`, of which those selected by `m` match exactly one
node row each and the rest match none: rendering cannot succeed when
exactly one reference survives the join, and the way's rendered geometry
is the ordered line of the surviving coordinates (a missing geometry when
none survive). -/
theorem render_ways_way_geometry
    (n wn wt : DataFrame) (gdf : GeoDF) (w : String)
    (pairs : List (Nat × String)) (m : String → Bool) (coordOf : String → Val × Val)
    (hid : "id" ∈ wn.cols)
    (hlon : "lon" ∉ wn.cols) (hlat : "lat" ∉ wn.cols)
    (hkeys : ∀ r ∈ wn.rows, rowKeys r = wn.cols)
    (hw : List.Forall₂ (fun (p : Nat × String) (lr : Row) =>
        cell lr "index" = Val.int p.1 ∧ cell lr "ref" = Val.str p.2)
      pairs (wn.rows.filter (fun r => cell r "id" == Val.str w)))
    (hsorted : List.Pairwise (fun a b => a.1 < b.1) pairs)
    (hnode : ∀ p ∈ pairs,
      (m p.2 = true → ∃ nr, n.rows.filter (fun r => cell r "id" == Val.str p.2) = [nr] ∧
        cell nr "lon" = (coordOf p.2).1 ∧ cell nr "lat" = (coordOf p.2).2) ∧
      (m p.2 = false → n.rows.filter (fun r => cell r "id" == Val.str p.2) = []))
    (hok : render_ways n wn wt = .ok (some gdf)) :
    ((pairs.filter (fun p => m p.2)).length = 1 → False) ∧
    ∀ (j : Nat) (r : Row), wt.rows[j]? = some r → cell r "id" = Val.str w →
      gdf.geoms[j]? = some (
        if (pairs.filter (fun p => m p.2)).isEmpty then none
        else some (Geom.line ((pairs.filter (fun p => m p.2)).map
          (fun p => ((coordOf p.2).1, (coordOf p.2).2))))) := by
  unfold render_ways at hok
  split at hok
  · cases hok
  split at hok
  · cases hok
  rename_i np hnp
  split at hok
  · cases hok
  rename_i wls hwls
  split at hok
  case isFalse => cases hok
  case isTrue hidwt =>
  cases hok
  unfold dfSelect at hnp
  split at hnp
  case isFalse => cases hnp
  case isTrue hall =>
  cases hnp
  have hgroup := merge_group_structure n wn w hid hkeys
  have hfgw := group_rows_forall2 n wn.cols m coordOf hlon hlat hw
    (fun lr hlr => hkeys lr (List.mem_filter.1 hlr).1) hnode
  have hway : wayline ((mergeInner wn ⟨["id", "lon", "lat"], n.rows.map selRow⟩
      "ref" "id" "_nodes").rows.filter (fun r => cell r "id" == Val.str w)) =
      if (pairs.filter (fun p => m p.2)).length = 1
        then .error "ValueError: LineString with one coordinate"
        else .ok (.line ((pairs.filter (fun p => m p.2)).map
          (fun p => ((coordOf p.2).1, (coordOf p.2).2)))) := by
    rw [hgroup]
    exact wayline_of_forall2 hfgw (hsorted.filter _)
  unfold way_lines_of at hwls
  have hfind := listMapE_keyed_find
    (F := fun w' => wayline ((mergeInner wn ⟨["id", "lon", "lat"], n.rows.map selRow⟩
      "ref" "id" "_nodes").rows.filter (fun r => cell r "id" == Val.str w'))) hwls w
  by_cases hempty : (pairs.filter (fun p => m p.2)).isEmpty
  · -- no surviving reference: the way is absent from the groupby result
    have hfp : pairs.filter (fun p => m p.2) = [] := List.isEmpty_iff.1 hempty
    have hgwnil : (wn.rows.filter (fun r => cell r "id" == Val.str w)).flatMap
        (fun lr => ((n.rows.map selRow).filter
            (fun rr => cell rr "id" == cell lr "ref")).map
          (fun rr => lr ++ rr.map
            (fun p => (mergeRen wn.cols ["id", "lon", "lat"] "_nodes" p.1, p.2)))) = [] := by
      have hlen := hfgw.length_eq
      rw [hfp] at hlen
      exact List.length_eq_zero.1 hlen.symm
    have hnomem : w ∉ groupKeys (mergeInner wn ⟨["id", "lon", "lat"], n.rows.map selRow⟩
        "ref" "id" "_nodes").rows := by
      intro hmem
      rcases mem_groupKeys_iff.1 hmem with ⟨r, hr, hcr⟩
      have : r ∈ ((mergeInner wn ⟨["id", "lon", "lat"], n.rows.map selRow⟩
          "ref" "id" "_nodes").rows.filter (fun r => cell r "id" == Val.str w)) :=
        List.mem_filter.2 ⟨hr, by rw [hcr]; simp⟩
      rw [hgroup, hgwnil] at this
      simp at this
    have hfnone := hfind.1 hnomem
    refine ⟨fun h1 => by rw [hfp] at h1; simp at h1, ?_⟩
    intro j r hj hcr
    show (wt.rows.map (fun r =>
      match cell r "id" with
      | Val.str w' => (wls.find? (fun p : String × Geom => p.1 == w')).map Prod.snd
      | _ => none))[j]? = _
    rw [List.getElem?_map, hj]
    simp only [Option.map, hcr, hfnone]
    rw [if_pos hempty]
  · -- at least one surviving reference
    have hfp_ne : pairs.filter (fun p => m p.2) ≠ [] := fun h => hempty (by rw [h]; rfl)
    have hgwne : (wn.rows.filter (fun r => cell r "id" == Val.str w)).flatMap
        (fun lr => ((n.rows.map selRow).filter
            (fun rr => cell rr "id" == cell lr "ref")).map
          (fun rr => lr ++ rr.map
            (fun p => (mergeRen wn.cols ["id", "lon", "lat"] "_nodes" p.1, p.2)))) ≠ [] := by
      intro h
      have hlen := hfgw.length_eq
      rw [h] at hlen
      exact hfp_ne (List.length_eq_zero.1 hlen)
    rcases List.exists_mem_of_ne_nil _ hgwne with ⟨e, he⟩
    have he' : e ∈ ((mergeInner wn ⟨["id", "lon", "lat"], n.rows.map selRow⟩
        "ref" "id" "_nodes").rows.filter (fun r => cell r "id" == Val.str w)) := by
      rw [hgroup]
      exact he
    have hwmem : w ∈ groupKeys (mergeInner wn ⟨["id", "lon", "lat"], n.rows.map selRow⟩
        "ref" "id" "_nodes").rows := by
      apply mem_groupKeys_iff.2
      refine ⟨e, (List.mem_filter.1 he').1, ?_⟩
      have := (List.mem_filter.1 he').2
      exact eq_of_beq this
    rcases hfind.2 hwmem with ⟨g, hg, hfnd⟩
    rw [hway] at hg
    have hA : (pairs.filter (fun p => m p.2)).length = 1 → False := by
      intro h1
      rw [if_pos h1] at hg
      cases hg
    refine ⟨hA, ?_⟩
    rw [if_neg hA] at hg
    cases hg
    intro j r hj hcr
    show (wt.rows.map (fun r =>
      match cell r "id" with
      | Val.str w' => (wls.find? (fun p : String × Geom => p.1 == w')).map Prod.snd
      | _ => none))[j]? = _
    rw [List.getElem?_map, hj]
    simp only [Option.map, hcr, hfnd]
    rw [if_neg hempty]

/-- C1: a way whose WayNodes rows reference `rs` (in reader order, with
`index` cells `0..N-1`), each reference resolving to exactly one node row
with known coordinates, renders as the line whose coordinate sequence is
exactly the references' coordinates in reference order.  The node table is
constrained only through per-id lookup, so the conclusion is independent
of the order in which the node rows (node elements) appear. -/
theorem claim_C1 (n wn wt : DataFrame) (gdf : GeoDF) (w : String)
    (rs : List String) (coordOf : String → Val × Val)
    (hid : "id" ∈ wn.cols) (hlon : "lon" ∉ wn.cols) (hlat : "lat" ∉ wn.cols)
    (hkeys : ∀ r ∈ wn.rows, rowKeys r = wn.cols)
    (hw : List.Forall₂ (fun (p : Nat × String) (lr : Row) =>
        cell lr "index" = Val.int p.1 ∧ cell lr "ref" = Val.str p.2)
      rs.enum (wn.rows.filter (fun r => cell r "id" == Val.str w)))
    (hnode : ∀ s ∈ rs, ∃ nr, n.rows.filter (fun r => cell r "id" == Val.str s) = [nr] ∧
      cell nr "lon" = (coordOf s).1 ∧ cell nr "lat" = (coordOf s).2)
    (hlen2 : 2 ≤ rs.length)
    (hok : render_ways n wn wt = .ok (some gdf)) :
    ∀ (j : Nat) (r : Row), wt.rows[j]? = some r → cell r "id" = Val.str w →
      gdf.geoms[j]? =
        some (some (Geom.line (rs.map (fun s => ((coordOf s).1, (coordOf s).2))))) := by
  have hmain := render_ways_way_geometry n wn wt gdf w rs.enum (fun _ => true) coordOf
    hid hlon hlat hkeys hw
    (by
      rw [← List.pairwise_map (f := Prod.fst), List.enum_map_fst]
      exact List.pairwise_lt_range rs.length)
    (by
      intro p hp
      refine ⟨fun _ => hnode p.2 (mem_of_mem_enum hp), fun h => by cases h⟩)
    hok
  dsimp only at hmain
  have hfilter : rs.enum.filter (fun p => true) = rs.enum := by
    induction rs.enum with
    | nil => rfl
    | cons x xs ih => rw [List.filter_cons, if_pos rfl, ih]
  intro j r hj hcr
  have := hmain.2 j r hj hcr
  rw [hfilter] at this
  rw [this]
  have hne : rs.enum.isEmpty = false := by
    cases hrs : rs with
    | nil => rw [hrs] at hlen2; simp at hlen2
    | cons a as => rfl
  rw [hne]
  have hmm : rs.enum.map (fun p => ((coordOf p.2).1, (coordOf p.2).2)) =
      rs.map (fun s => ((coordOf s).1, (coordOf s).2)) := by
    conv_rhs => rw [← List.enum_map_snd rs]
    rw [List.map_map]
    rfl
  rw [hmm]
  rfl

/-- Witness for C1: a way referencing nodes 1, 2, 3 whose node rows are
listed in the scrambled order 2, 3, 1; the rendered line still follows
the reference order. -/
theorem claim_C1_witness :
    render_ways
        ⟨["id", "lon", "lat"],
         [[("id", .str "2"), ("lon", .rat 20), ("lat", .rat 21)],
          [("id", .str "3"), ("lon", .rat 30), ("lat", .rat 31)],
          [("id", .str "1"), ("lon", .rat 10), ("lat", .rat 11)]]⟩
        ⟨["ref", "id", "index"],
         [[("ref", .str "1"), ("id", .str "9"), ("index", .int 0)],
          [("ref", .str "2"), ("id", .str "9"), ("index", .int 1)],
          [("ref", .str "3"), ("id", .str "9"), ("index", .int 2)]]⟩
        ⟨["id", "highway"], [[("id", .str "9"), ("highway", .str "residential")]]⟩ =
      .ok (some ⟨["id", "highway"],
                 [[("id", .str "9"), ("highway", .str "residential")]],
                 [some (.line [(.rat 10, .rat 11), (.rat 20, .rat 21), (.rat 30, .rat 31)])]⟩) ∧
    (⟨["id", "highway"],
      [[("id", .str "9"), ("highway", .str "residential")]],
      [some (.line [(.rat 10, .rat 11), (.rat 20, .rat 21), (.rat 30, .rat 31)])]⟩ :
        GeoDF).geoms[0]? =
      some (some (.line [(.rat 10, .rat 11), (.rat 20, .rat 21), (.rat 30, .rat 31)])) := by
  have hren : render_ways
      ⟨["id", "lon", "lat"],
       [[("id", .str "2"), ("lon", .rat 20), ("lat", .rat 21)],
        [("id", .str "3"), ("lon", .rat 30), ("lat", .rat 31)],
        [("id", .str "1"), ("lon", .rat 10), ("lat", .rat 11)]]⟩
      ⟨["ref", "id", "index"],
       [[("ref", .str "1"), ("id", .str "9"), ("index", .int 0)],
        [("ref", .str "2"), ("id", .str "9"), ("index", .int 1)],
        [("ref", .str "3"), ("id", .str "9"), ("index", .int 2)]]⟩
      ⟨["id", "highway"], [[("id", .str "9"), ("highway", .str "residential")]]⟩ =
      .ok (some ⟨["id", "highway"],
                 [[("id", .str "9"), ("highway", .str "residential")]],
                 [some (.line [(.rat 10, .rat 11), (.rat 20, .rat 21),
                   (.rat 30, .rat 31)])]⟩) := by decide
  refine ⟨hren, ?_⟩
  have h := claim_C1
    ⟨["id", "lon", "lat"],
     [[("id", .str "2"), ("lon", .rat 20), ("lat", .rat 21)],
      [("id", .str "3"), ("lon", .rat 30), ("lat", .rat 31)],
      [("id", .str "1"), ("lon", .rat 10), ("lat", .rat 11)]]⟩
    ⟨["ref", "id", "index"],
     [[("ref", .str "1"), ("id", .str "9"), ("index", .int 0)],
      [("ref", .str "2"), ("id", .str "9"), ("index", .int 1)],
      [("ref", .str "3"), ("id", .str "9"), ("index", .int 2)]]⟩
    ⟨["id", "highway"], [[("id", .str "9"), ("highway", .str "residential")]]⟩
    ⟨["id", "highway"],
     [[("id", .str "9"), ("highway", .str "residential")]],
     [some (.line [(.rat 10, .rat 11), (.rat 20, .rat 21), (.rat 30, .rat 31)])]⟩
    "9" ["1", "2", "3"]
    (fun s => if s = "1" then (Val.rat 10, Val.rat 11)
      else if s = "2" then (Val.rat 20, Val.rat 21) else (Val.rat 30, Val.rat 31))
    (by decide) (by decide) (by decide) (by decide)
    (by
      refine List.Forall₂.cons ⟨by decide, by decide⟩
        (List.Forall₂.cons ⟨by decide, by decide⟩
          (List.Forall₂.cons ⟨by decide, by decide⟩ List.Forall₂.nil)))
    (by
      intro s hs
      simp only [List.mem_cons, List.not_mem_nil, or_false] at hs
      rcases hs with h | h | h
      · subst h
        exact ⟨[("id", .str "1"), ("lon", .rat 10), ("lat", .rat 11)],
          by decide, by decide, by decide⟩
      · subst h
        exact ⟨[("id", .str "2"), ("lon", .rat 20), ("lat", .rat 21)],
          by decide, by decide, by decide⟩
      · subst h
        exact ⟨[("id", .str "3"), ("lon", .rat 30), ("lat", .rat 31)],
          by decide, by decide, by decide⟩)
    (by decide) hren
    0 [("id", .str "9"), ("highway", .str "residential")] (by decide) (by decide)
  exact h.trans (by decide)

/-- C5 as stated is false: a way that keeps exactly one reference after
the join does fail the render — shapely rejects a one-coordinate
`LineString` — so way rendering is not total in the presence of dangling
references. -/
theorem claim_C5_counterexample :
    render_ways
        ⟨["id", "lon", "lat"], [[("id", .str "1"), ("lon", .rat 10), ("lat", .rat 11)]]⟩
        ⟨["ref", "id", "index"],
         [[("ref", .str "1"), ("id", .str "9"), ("index", .int 0)],
          [("ref", .str "7"), ("id", .str "9"), ("index", .int 1)]]⟩
        ⟨["id"], [[("id", .str "9")]]⟩ =
      .error "ValueError: LineString with one coordinate" := by decide

/-- C5 amended: a WayNodes row whose `ref` matches no node `id` is dropped
by the join; when at least two references survive the way renders as the
shorter line of the surviving coordinates in index order; when exactly one
survives, rendering fails (shapely rejects a one-coordinate LineString)
— so a successful render implies no way was left with exactly one
coordinate; and when none survive the way gets a missing (null) geometry,
not an empty line. -/
theorem claim_C5_amended
    (n wn wt : DataFrame) (gdf : GeoDF) (w : String)
    (pairs : List (Nat × String)) (m : String → Bool) (coordOf : String → Val × Val)
    (hid : "id" ∈ wn.cols)
    (hlon : "lon" ∉ wn.cols) (hlat : "lat" ∉ wn.cols)
    (hkeys : ∀ r ∈ wn.rows, rowKeys r = wn.cols)
    (hw : List.Forall₂ (fun (p : Nat × String) (lr : Row) =>
        cell lr "index" = Val.int p.1 ∧ cell lr "ref" = Val.str p.2)
      pairs (wn.rows.filter (fun r => cell r "id" == Val.str w)))
    (hsorted : List.Pairwise (fun a b => a.1 < b.1) pairs)
    (hnode : ∀ p ∈ pairs,
      (m p.2 = true → ∃ nr, n.rows.filter (fun r => cell r "id" == Val.str p.2) = [nr] ∧
        cell nr "lon" = (coordOf p.2).1 ∧ cell nr "lat" = (coordOf p.2).2) ∧
      (m p.2 = false → n.rows.filter (fun r => cell r "id" == Val.str p.2) = []))
    (hok : render_ways n wn wt = .ok (some gdf)) :
    ((pairs.filter (fun p => m p.2)).length = 1 → False) ∧
    ∀ (j : Nat) (r : Row), wt.rows[j]? = some r → cell r "id" = Val.str w →
      gdf.geoms[j]? = some (
        if (pairs.filter (fun p => m p.2)).isEmpty then none
        else some (Geom.line ((pairs.filter (fun p => m p.2)).map
          (fun p => ((coordOf p.2).1, (coordOf p.2).2))))) :=
  render_ways_way_geometry n wn wt gdf w pairs m coordOf hid hlon hlat hkeys hw
    hsorted hnode hok

/-- Witness for the amended C5: a way referencing nodes 1, 7, 2 where node
7 is absent; the way renders as the two-point line of nodes 1 and 2. -/
theorem claim_C5_amended_witness :
    render_ways
        ⟨["id", "lon", "lat"],
         [[("id", .str "1"), ("lon", .rat 10), ("lat", .rat 11)],
          [("id", .str "2"), ("lon", .rat 20), ("lat", .rat 21)]]⟩
        ⟨["ref", "id", "index"],
         [[("ref", .str "1"), ("id", .str "9"), ("index", .int 0)],
          [("ref", .str "7"), ("id", .str "9"), ("index", .int 1)],
          [("ref", .str "2"), ("id", .str "9"), ("index", .int 2)]]⟩
        ⟨["id"], [[("id", .str "9")]]⟩ =
      .ok (some ⟨["id"], [[("id", .str "9")]],
                 [some (.line [(.rat 10, .rat 11), (.rat 20, .rat 21)])]⟩) ∧
    (⟨["id"], [[("id", .str "9")]],
      [some (.line [(.rat 10, .rat 11), (.rat 20, .rat 21)])]⟩ : GeoDF).geoms[0]? =
      some (some (.line [(.rat 10, .rat 11), (.rat 20, .rat 21)])) := by
  have hren : render_ways
      ⟨["id", "lon", "lat"],
       [[("id", .str "1"), ("lon", .rat 10), ("lat", .rat 11)],
        [("id", .str "2"), ("lon", .rat 20), ("lat", .rat 21)]]⟩
      ⟨["ref", "id", "index"],
       [[("ref", .str "1"), ("id", .str "9"), ("index", .int 0)],
        [("ref", .str "7"), ("id", .str "9"), ("index", .int 1)],
        [("ref", .str "2"), ("id", .str "9"), ("index", .int 2)]]⟩
      ⟨["id"], [[("id", .str "9")]]⟩ =
      .ok (some ⟨["id"], [[("id", .str "9")]],
                 [some (.line [(.rat 10, .rat 11), (.rat 20, .rat 21)])]⟩) := by decide
  refine ⟨hren, ?_⟩
  have h := claim_C5_amended
    ⟨["id", "lon", "lat"],
     [[("id", .str "1"), ("lon", .rat 10), ("lat", .rat 11)],
      [("id", .str "2"), ("lon", .rat 20), ("lat", .rat 21)]]⟩
    ⟨["ref", "id", "index"],
     [[("ref", .str "1"), ("id", .str "9"), ("index", .int 0)],
      [("ref", .str "7"), ("id", .str "9"), ("index", .int 1)],
      [("ref", .str "2"), ("id", .str "9"), ("index", .int 2)]]⟩
    ⟨["id"], [[("id", .str "9")]]⟩
    ⟨["id"], [[("id", .str "9")]],
     [some (.line [(.rat 10, .rat 11), (.rat 20, .rat 21)])]⟩
    "9" [(0, "1"), (1, "7"), (2, "2")]
    (fun s => ¬ s == "7")
    (fun s => if s = "1" then (Val.rat 10, Val.rat 11) else (Val.rat 20, Val.rat 21))
    (by decide) (by decide) (by decide) (by decide)
    (by
      refine List.Forall₂.cons ⟨by decide, by decide⟩
        (List.Forall₂.cons ⟨by decide, by decide⟩
          (List.Forall₂.cons ⟨by decide, by decide⟩ List.Forall₂.nil)))
    (by decide)
    (by
      intro p hp
      simp only [List.mem_cons, List.not_mem_nil, or_false] at hp
      rcases hp with h | h | h
      · subst h
        refine ⟨fun _ => ⟨[("id", .str "1"), ("lon", .rat 10), ("lat", .rat 11)],
          by decide, by decide, by decide⟩, fun hfalse => by simp at hfalse⟩
      · subst h
        refine ⟨fun htrue => by simp at htrue, fun _ => by decide⟩
      · subst h
        refine ⟨fun _ => ⟨[("id", .str "2"), ("lon", .rat 20), ("lat", .rat 21)],
          by decide, by decide, by decide⟩, fun hfalse => by simp at hfalse⟩)
    hren
  have h2 := h.2 0 [("id", .str "9")] (by decide) (by decide)
  exact h2.trans (by decide)

/-- C3 as stated is false: the denylist is applied only to child `tag`
keys, so a denylisted key occurring as a native XML attribute (here
`source` on a `node` element) becomes a column of the built Nodes table. -/
theorem claim_C3_counterexample :
    read_nodes
        (XElem.mk "osm" []
          [XElem.mk "node" [("id", "1"), ("lat", "2"), ("lon", "3"), ("source", "x")] []]) =
      .ok ⟨["id", "lat", "lon", "source"],
           [[("id", .str "1"), ("lat", .rat 2), ("lon", .rat 3), ("source", .str "x")]]⟩ ∧
    "source" ∈ uninteresting_tags := by
  constructor
  · decide
  · decide

end GeoOSM
